import Mathlib

/-!
Verification of the explicit-grid resolution module of the taffy grid layout
engine (file src/compute/grid/explicit_grid.rs).

The two functions under study are

* compute_explicit_grid_size_in_axis: given a style and an axis, resolves how
  many explicit tracks the track template produces (expanding a single
  auto-repetition against the container's definite size);
* initialize_grid_tracks (modelled here as init_grid_tracks, since the
  original name is not usable): given final track counts, the template, the
  auto-tracks list, a gap and an item-presence predicate, builds the ordered
  gutter/track sequence.

Embedding conventions:

* Lengths are embedded as exact rationals.  The source computes in f32; every
  concrete input used in the theorems below keeps all intermediate values
  small integers or simple fractions, where f32 arithmetic is exact.
* u16 arithmetic is embedded as Nat with explicit reduction mod 2 ^ 16, i.e.
  the wrapping overflow semantics of release builds (claim C9 of the spec
  explicitly describes the counts as wrapping mod 2 ^ 16).  Casts from usize
  and from floats mirror the Rust cast semantics: `as u16` on usize truncates
  mod 2 ^ 16, `as u16` on a float saturates to [0, 65535] with NaN mapped
  to 0.
* Rust panics (Option::unwrap on None, remainder by zero) are modelled by
  returning none; functions that can panic return Option.
* Types that the module consumes from the style layer (Style accessors,
  sizing functions, GridTrack) are not part of the source file; they are
  modelled from the spec and are marked as such in their doc comments.
-/

namespace Taffy

/-- The absolute axis selector (row or column direction). -/
inductive AbsoluteAxis : Type
  | Horizontal
  | Vertical
deriving DecidableEq

/-- Modelled from the spec: a length-percentage style value, either an
absolute length in points or a fraction of the parent size. -/
inductive LengthPercentage : Type
  | Points (value : ℚ)
  | Percent (fraction : ℚ)
deriving DecidableEq

/-- Modelled from the spec: resolve a length-percentage against an optional
parent size; a percentage with no parent does not resolve. -/
def LengthPercentage.maybe_resolve : LengthPercentage → Option ℚ → Option ℚ
  | .Points value, _ => some value
  | .Percent fraction, some parent => some (fraction * parent)
  | .Percent _, none => none

/-- Modelled from the spec: resolve a length-percentage, defaulting to zero
when it does not resolve. -/
def LengthPercentage.resolve_or_zero (lp : LengthPercentage) (parent : Option ℚ) : ℚ :=
  (lp.maybe_resolve parent).getD 0

/-- Modelled from the spec: one sizing-function component, drawn from
fixed length, auto, min-content, max-content, fit-content and
flexible (factor). -/
inductive SizingFunctionComponent : Type
  | Fixed (lp : LengthPercentage)
  | Auto
  | MinContent
  | MaxContent
  | FitContent (lp : LengthPercentage)
  | Flex (factor : ℚ)
deriving DecidableEq

/-- Modelled from the spec: the definite-value resolver of a sizing-function
component against an optional parent size; it yields no value when the
component is content-dependent or flexible. -/
def SizingFunctionComponent.definite_value : SizingFunctionComponent → Option ℚ → Option ℚ
  | .Fixed lp, parent => lp.maybe_resolve parent
  | _, _ => none

/-- Modelled from the spec: whether the component is a fixed length. -/
def SizingFunctionComponent.is_fixed : SizingFunctionComponent → Bool
  | .Fixed _ => true
  | _ => false

/-- Modelled from the spec: a non-repeated track sizing function is a
(min, max) pair of sizing-function components.  The externally-defined
mapping to min and max track sizing functions (including the rule that a
flexible max implies an Auto min) is applied by the style layer when the
pair is constructed, so the fields here already hold the mapped values. -/
structure NonRepeatedTrackSizingFunction : Type where
  min : SizingFunctionComponent
  max : SizingFunctionComponent
deriving DecidableEq

/-- Modelled from the spec: the pair has a fixed component when at least one
of its min and max components is a fixed length. -/
def NonRepeatedTrackSizingFunction.has_fixed_component
    (sizing_function : NonRepeatedTrackSizingFunction) : Bool :=
  sizing_function.min.is_fixed || sizing_function.max.is_fixed

/-- Modelled from the spec: extract the min track sizing function. -/
def NonRepeatedTrackSizingFunction.min_sizing_function
    (sizing_function : NonRepeatedTrackSizingFunction) : SizingFunctionComponent :=
  sizing_function.min

/-- Modelled from the spec: extract the max track sizing function. -/
def NonRepeatedTrackSizingFunction.max_sizing_function
    (sizing_function : NonRepeatedTrackSizingFunction) : SizingFunctionComponent :=
  sizing_function.max

/-- Modelled from the spec: the Auto/Auto sizing pair used for implicit
tracks when the auto-tracks list is empty. -/
def NonRepeatedTrackSizingFunction.AUTO : NonRepeatedTrackSizingFunction :=
  ⟨SizingFunctionComponent.Auto, SizingFunctionComponent.Auto⟩

/-- The auto-repetition kind of a repeat() template entry. -/
inductive GridTrackRepetition : Type
  | AutoFill
  | AutoFit
deriving DecidableEq

/-- One entry of a per-axis track template: a single track or an
auto-repeated group of tracks. -/
inductive TrackSizingFunction : Type
  | Single (sizing_function : NonRepeatedTrackSizingFunction)
  | AutoRepeat (kind : GridTrackRepetition) (tracks : List NonRepeatedTrackSizingFunction)
deriving DecidableEq

/-- Whether a template entry is an auto-repetition. -/
def TrackSizingFunction.is_auto_repetition : TrackSizingFunction → Bool
  | .Single _ => false
  | .AutoRepeat _ _ => true

/-- A rectangle of per-edge values (used for padding and border). -/
structure Rect (α : Type) : Type where
  left : α
  right : α
  top : α
  bottom : α
deriving DecidableEq

/-- A pair of per-axis values (used for sizes and gaps). -/
structure Size (α : Type) : Type where
  width : α
  height : α
deriving DecidableEq

/-- Pick the component of a size for the given absolute axis. -/
def Size.get_abs {α : Type} (s : Size α) : AbsoluteAxis → α
  | .Horizontal => s.width
  | .Vertical => s.height

/-- Modelled from the spec: resolve each edge of a length-percentage
rectangle against an optional parent size, defaulting to zero. -/
def Rect.resolve_or_zero (r : Rect LengthPercentage) (parent : Option ℚ) : Rect ℚ :=
  ⟨r.left.resolve_or_zero parent, r.right.resolve_or_zero parent,
   r.top.resolve_or_zero parent, r.bottom.resolve_or_zero parent⟩

/-- Sum of the two edges of a rectangle along the given grid axis. -/
def Rect.grid_axis_sum (r : Rect ℚ) : AbsoluteAxis → ℚ
  | .Horizontal => r.left + r.right
  | .Vertical => r.top + r.bottom

/-- Modelled from the spec: the style record, restricted to the accessors
this module reads.  Sizes are already resolved to an optional definite
value per axis (indefinite is a valid sentinel, not an error). -/
structure Style : Type where
  grid_template_rows : List TrackSizingFunction := []
  grid_template_columns : List TrackSizingFunction := []
  size : Size (Option ℚ) := ⟨none, none⟩
  min_size : Size (Option ℚ) := ⟨none, none⟩
  max_size : Size (Option ℚ) := ⟨none, none⟩
  padding : Rect LengthPercentage := ⟨.Points 0, .Points 0, .Points 0, .Points 0⟩
  border : Rect LengthPercentage := ⟨.Points 0, .Points 0, .Points 0, .Points 0⟩
  gap : Size LengthPercentage := ⟨.Points 0, .Points 0⟩
deriving DecidableEq

/-- The per-axis track template (grid-template-columns for the horizontal
axis, grid-template-rows for the vertical axis). -/
def Style.grid_template_tracks (style : Style) : AbsoluteAxis → List TrackSizingFunction
  | .Horizontal => style.grid_template_columns
  | .Vertical => style.grid_template_rows

/-- MaybeMath on a value and an optional value: minimum when the second is
present, the first value otherwise. -/
def maybeMin (a : ℚ) : Option ℚ → ℚ
  | some b => min a b
  | none => a

/-- MaybeMath on two optional values: minimum when both are present, the
first when only it is present, none when the first is absent. -/
def maybeMinOpt : Option ℚ → Option ℚ → Option ℚ
  | some a, b => some (maybeMin a b)
  | none, _ => none

/-- The final track counts for one axis.  All three fields are u16 in the
source; they are embedded as Nat, and theorems that depend on the u16 range
carry it as a hypothesis. -/
structure TrackCounts : Type where
  negative_implicit : Nat
  explicit : Nat
  positive_implicit : Nat
deriving DecidableEq

/-- Truncating cast from usize to u16 (Rust `as u16` reduces mod 2^16 in
every build mode). -/
def u16ofNat (n : Nat) : Nat := n % 65536

/-- Wrapping u16 subtraction (release-build overflow semantics). -/
def u16sub (a b : Nat) : Nat := (a % 65536 + 65536 - b % 65536) % 65536

/-- Saturating cast from an integer-valued float to u16: negative values
clamp to 0, values above 65535 clamp to 65535. -/
def intToU16sat (i : ℤ) : Nat := if i < 0 then 0 else min 65535 i.toNat

/-- Rust `(a / b).floor() as u16` computed in floats: the b = 0 column
follows IEEE semantics, 0/0 is NaN (cast to 0) and x/0 for x ≠ 0 is a
signed infinity (cast saturates). -/
def divCastFloor (a b : ℚ) : Nat :=
  if b = 0 then (if a = 0 then 0 else if a < 0 then 0 else 65535)
  else intToU16sat (Int.floor (a / b))

/-- Rust `(a / b).ceil() as u16` computed in floats, with the same b = 0
column as divCastFloor. -/
def divCastCeil (a b : ℚ) : Nat :=
  if b = 0 then (if a = 0 then 0 else if a < 0 then 0 else 65535)
  else intToU16sat (Int.ceil (a / b))

/-- The validity check of the template (lines 24-29 of the source): every
Single entry and every entry of the repeated group has a fixed component. -/
def all_track_defs_have_fixed_component (template : List TrackSizingFunction) : Bool :=
  template.all fun track_def =>
    match track_def with
    | .Single sizing_function => sizing_function.has_fixed_component
    | .AutoRepeat _ tracks => tracks.all NonRepeatedTrackSizingFunction.has_fixed_component

/-- The find_map of lines 46-52 of the source: the repeated-track group of
the first AutoRepeat entry of the template. -/
def repetition_definition (template : List TrackSizingFunction) :
    Option (List NonRepeatedTrackSizingFunction) :=
  template.findSome? fun track_def =>
    match track_def with
    | .Single _ => none
    | .AutoRepeat _ tracks => some tracks

/-- Lines 88-92 of the source: the definite value of a sizing-function pair
used by the repetition computation.  Note that, as in the source, both the
max-oriented and the min-oriented candidate are read from the pair's max
sizing function.  none models the panicking unwrap of line 91. -/
def track_definite_value (sizing_function : NonRepeatedTrackSizingFunction)
    (parent_size : Option ℚ) : Option ℚ :=
  let max_size := sizing_function.max.definite_value parent_size
  let min_size := sizing_function.max.definite_value parent_size
  (max_size.map fun mx => maybeMin mx min_size).or min_size

/-- Sum of optional summands; none as soon as one summand is none (each
summand of the source's iterator sums unwraps, panicking on None). -/
def sumTracksOpt {α : Type} (f : α → Option ℚ) : List α → Option ℚ
  | [] => some 0
  | a :: rest =>
    match f a, sumTracksOpt f rest with
    | some v, some s => some (v + s)
    | _, _ => none

/-- Lines 94-100 of the source: definite space used by the non-repeating
template entries. -/
def non_repeating_track_used_space (template : List TrackSizingFunction)
    (parent_size : Option ℚ) : Option ℚ :=
  sumTracksOpt
    (fun track_def =>
      match track_def with
      | TrackSizingFunction.Single sizing_function => track_definite_value sizing_function parent_size
      | TrackSizingFunction.AutoRepeat _ _ => some 0)
    template

/-- Lines 104-107 of the source: definite space used by one repetition of
the repeated track group. -/
def per_repetition_track_used_space (repeated : List NonRepeatedTrackSizingFunction)
    (parent_size : Option ℚ) : Option ℚ :=
  sumTracksOpt (fun sizing_function => track_definite_value sizing_function parent_size) repeated

/-- The outer container size of lines 68-72 of the source: preferred size
clamped by max size when both are definite, else max size, else min size. -/
def outer_container_size (style : Style) (axis : AbsoluteAxis) : Option ℚ :=
  ((maybeMinOpt (style.size.get_abs axis) (style.max_size.get_abs axis)).or
      (style.max_size.get_abs axis)).or
    (style.min_size.get_abs axis)

/-- The inner (content-box) container size of lines 73-77 of the source:
outer size minus padding and border resolved against the outer size. -/
def inner_container_size (style : Style) (axis : AbsoluteAxis) : Option ℚ :=
  (outer_container_size style axis).map fun size =>
    size - (style.padding.resolve_or_zero (outer_container_size style axis)).grid_axis_sum axis
      - (style.border.resolve_or_zero (outer_container_size style axis)).grid_axis_sum axis

/-- Line 78 of the source: the container size counts as a maximum when the
preferred or the max size is definite. -/
def size_is_maximum (style : Style) (axis : AbsoluteAxis) : Bool :=
  (style.size.get_abs axis).isSome || (style.max_size.get_abs axis).isSome

/-- Lines 81-139 of the source: the resolved number of repetitions of the
repeated track group.  none models a panic inside the track sums. -/
def num_repetitions (style : Style) (axis : AbsoluteAxis)
    (non_repeating_track_count repetition_track_count : Nat)
    (rep_definition : List NonRepeatedTrackSizingFunction) : Option Nat :=
  match inner_container_size style axis with
  | none => some 1
  | some inner =>
    match non_repeating_track_used_space (style.grid_template_tracks axis) (some inner),
        per_repetition_track_used_space rep_definition (some inner) with
    | some non_repeating_space, some per_repetition_space =>
      let gap_size := (style.gap.get_abs axis).resolve_or_zero (some inner)
      let first_repetition_and_non_repeating_tracks_used_space :=
        non_repeating_space + per_repetition_space
          + ((((non_repeating_track_count + repetition_track_count) % 65536 - 1 : Nat) : ℚ)
              * gap_size)
      if inner < first_repetition_and_non_repeating_tracks_used_space then some 1
      else
        let per_repetition_gap_used_space := (rep_definition.length : ℚ) * gap_size
        let per_repetition_used_space := per_repetition_space + per_repetition_gap_used_space
        some (u16ofNat
          ((if size_is_maximum style axis then
              divCastFloor (inner - first_repetition_and_non_repeating_tracks_used_space)
                per_repetition_used_space
            else
              divCastCeil (inner - first_repetition_and_non_repeating_tracks_used_space)
                per_repetition_used_space) + 1))
    | _, _ => none

/-- Lines 13-142 of the source: the number of explicit tracks produced by
the per-axis template.  none models a panic (reachable only through the
track-sum unwraps of track_definite_value). -/
def compute_explicit_grid_size_in_axis (style : Style) (axis : AbsoluteAxis) : Option Nat :=
  let template := style.grid_template_tracks axis
  if template.isEmpty then some 0
  else
    let auto_repetition_count := u16ofNat (template.countP TrackSizingFunction.is_auto_repetition)
    let non_repeating_track_count := u16sub (u16ofNat template.length) auto_repetition_count
    let template_is_valid :=
      auto_repetition_count = 0 ∨
        (auto_repetition_count = 1 ∧ all_track_defs_have_fixed_component template = true)
    if ¬template_is_valid then some 0
    else if auto_repetition_count = 0 then some (u16ofNat template.length)
    else
      match repetition_definition template with
      | none => none
      | some rep_definition =>
        let repetition_track_count := u16ofNat rep_definition.length
        if repetition_track_count = 0 then some 0
        else
          (num_repetitions style axis non_repeating_track_count repetition_track_count
              rep_definition).map
            fun n => u16ofNat (non_repeating_track_count + repetition_track_count * n)

/-- The kind of a produced sequence entry. -/
inductive GridTrackKind : Type
  | Track
  | Gutter
deriving DecidableEq

/-- Modelled from the spec: the output unit of the track list initializer. -/
structure GridTrack : Type where
  kind : GridTrackKind
  min_track_sizing_function : SizingFunctionComponent
  max_track_sizing_function : SizingFunctionComponent
  is_collapsed : Bool
deriving DecidableEq

/-- Modelled from the spec: a gutter entry carrying a fixed-length sizing
function equal to the gap. -/
def GridTrack.gutter (gap : LengthPercentage) : GridTrack :=
  ⟨GridTrackKind.Gutter, SizingFunctionComponent.Fixed gap, SizingFunctionComponent.Fixed gap,
    false⟩

/-- Modelled from the spec: a track entry with the given min and max sizing
functions. -/
def GridTrack.new (minf maxf : SizingFunctionComponent) : GridTrack :=
  ⟨GridTrackKind.Track, minf, maxf, false⟩

/-- Modelled from the spec: collapsing an entry marks it collapsed and
zeroes its sizing functions (collapsed entries stay in the sequence but
contribute zero space). -/
def GridTrack.collapse (t : GridTrack) : GridTrack :=
  { t with
    is_collapsed := true
    min_track_sizing_function := SizingFunctionComponent.Fixed (LengthPercentage.Points 0)
    max_track_sizing_function := SizingFunctionComponent.Fixed (LengthPercentage.Points 0) }

/-- Flatten a list of (track, gutter) pairs into the output sequence order. -/
def pairsList : List (GridTrack × GridTrack) → List GridTrack
  | [] => []
  | p :: rest => p.1 :: p.2 :: pairsList rest

/-- Lines 222-233 of the source (create_implicit_tracks), with the cyclic
iterator replaced by its index function: the i-th implicit track uses
sizing pair f i, and every track is followed by a gutter. -/
def implicitPairs (count : Nat) (f : Nat → NonRepeatedTrackSizingFunction)
    (gap : LengthPercentage) : List (GridTrack × GridTrack) :=
  (List.range count).map fun i =>
    (GridTrack.new (f i).min_sizing_function (f i).max_sizing_function, GridTrack.gutter gap)

/-- The utility function create_implicit_tracks of the source, as the list
of entries it pushes. -/
def create_implicit_tracks (count : Nat) (f : Nat → NonRepeatedTrackSizingFunction)
    (gap : LengthPercentage) : List GridTrack :=
  pairsList (implicitPairs count f gap)

/-- Lines 177-204 of the source: the walk over the template that emits the
explicit tracks.  Arguments template_len and explicit are the full template
length and counts.explicit (both referenced inside the AutoRepeat arm); the
walk returns the emitted (track, gutter) pairs, the list of absolute track
indices at which track_has_items is invoked, and threads the absolute track
index.  The cycle() of an empty repeated group yields no items, hence the
isEmpty special case.  The wrapping u16 subtraction mirrors
counts.explicit - (track_template.len() as u16 - 1). -/
def explicitWalk (template_len explicit : Nat) (gap : LengthPercentage)
    (track_has_items : Nat → Bool) :
    List TrackSizingFunction → Nat → List (GridTrack × GridTrack) × List Nat
  | [], _ => ([], [])
  | TrackSizingFunction.Single sizing_function :: rest, current_track_index =>
    let r := explicitWalk template_len explicit gap track_has_items rest
      (current_track_index + 1)
    ((GridTrack.new sizing_function.min_sizing_function sizing_function.max_sizing_function,
       GridTrack.gutter gap) :: r.1,
     r.2)
  | TrackSizingFunction.AutoRepeat repetition_kind repeated_tracks :: rest,
      current_track_index =>
    let auto_repeated_track_count := u16sub explicit (u16sub (u16ofNat template_len) 1)
    let emitted := if repeated_tracks.isEmpty then 0 else auto_repeated_track_count
    let gen := (List.range emitted).map fun j =>
      let track_def := repeated_tracks.getD (j % repeated_tracks.length)
        NonRepeatedTrackSizingFunction.AUTO
      let track := GridTrack.new track_def.min_sizing_function track_def.max_sizing_function
      let gutter := GridTrack.gutter gap
      if repetition_kind = GridTrackRepetition.AutoFit ∧
          track_has_items (current_track_index + j) = false then
        (track.collapse, gutter.collapse)
      else (track, gutter)
    let log := if repetition_kind = GridTrackRepetition.AutoFit then
        (List.range emitted).map (fun j => current_track_index + j)
      else []
    let r := explicitWalk template_len explicit gap track_has_items rest
      (current_track_index + emitted)
    (gen ++ r.1, log ++ r.2)

/-- Mark the first entry of the sequence collapsed (tracks.first_mut of
line 217; the sequence is never empty there since the leading gutter was
pushed first). -/
def collapseFirst : List GridTrack → List GridTrack
  | [] => []
  | t :: rest => t.collapse :: rest

/-- Mark the last entry of the sequence collapsed (tracks.last_mut of
line 218). -/
def collapseLast : List GridTrack → List GridTrack
  | [] => []
  | [t] => [t.collapse]
  | t :: u :: rest => t :: collapseLast (u :: rest)

/-- Lines 146-219 of the source (initialize_grid_tracks), instrumented to
also return the list of absolute track indices at which track_has_items is
invoked.  The result is none exactly when the source panics: the offset
computation max_count % min_count of line 167 is a remainder by zero
whenever auto_tracks is non-empty and counts.negative_implicit is zero.
Clearing and reserving the output vector are allocation details with no
observable effect on the produced sequence. -/
def init_grid_tracks_full (counts : TrackCounts) (track_template : List TrackSizingFunction)
    (auto_tracks : List NonRepeatedTrackSizingFunction) (gap : LengthPercentage)
    (track_has_items : Nat → Bool) : Option (List GridTrack × List Nat) :=
  let negPairsOpt : Option (List (GridTrack × GridTrack)) :=
    if auto_tracks.isEmpty then
      some (implicitPairs counts.negative_implicit (fun _ => NonRepeatedTrackSizingFunction.AUTO)
        gap)
    else
      let max_count := max auto_tracks.length counts.negative_implicit
      let min_count := min auto_tracks.length counts.negative_implicit
      if min_count = 0 then none
      else
        let offset := max_count % min_count
        some (implicitPairs counts.negative_implicit
          (fun i => auto_tracks.getD ((offset + i) % auto_tracks.length)
            NonRepeatedTrackSizingFunction.AUTO)
          gap)
  negPairsOpt.map fun negPairs =>
    let r :=
      if 0 < counts.explicit then
        explicitWalk track_template.length counts.explicit gap track_has_items track_template
          counts.negative_implicit
      else ([], [])
    let posPairs :=
      if auto_tracks.isEmpty then
        implicitPairs counts.positive_implicit (fun _ => NonRepeatedTrackSizingFunction.AUTO) gap
      else
        implicitPairs counts.positive_implicit
          (fun i => auto_tracks.getD (i % auto_tracks.length)
            NonRepeatedTrackSizingFunction.AUTO)
          gap
    let body := GridTrack.gutter gap :: (pairsList negPairs ++ pairsList r.1 ++ pairsList posPairs)
    (collapseLast (collapseFirst body), r.2)

/-- The produced track sequence of initialize_grid_tracks (none models a
panic). -/
def init_grid_tracks (counts : TrackCounts) (track_template : List TrackSizingFunction)
    (auto_tracks : List NonRepeatedTrackSizingFunction) (gap : LengthPercentage)
    (track_has_items : Nat → Bool) : Option (List GridTrack) :=
  (init_grid_tracks_full counts track_template auto_tracks gap track_has_items).map Prod.fst

/-- The list of absolute track indices at which initialize_grid_tracks
invokes the track_has_items predicate, in invocation order. -/
def track_has_items_calls (counts : TrackCounts) (track_template : List TrackSizingFunction)
    (auto_tracks : List NonRepeatedTrackSizingFunction) (gap : LengthPercentage)
    (track_has_items : Nat → Bool) : Option (List Nat) :=
  (init_grid_tracks_full counts track_template auto_tracks gap track_has_items).map Prod.snd

/-- The expected Gutter/Track alternation pattern with n tracks:
Gutter, (Track, Gutter) repeated n times. -/
def gutterTrackPattern : Nat → List GridTrackKind
  | 0 => [GridTrackKind.Gutter]
  | n + 1 => GridTrackKind.Gutter :: GridTrackKind.Track :: gutterTrackPattern n

/-- A sizing pair fixed to q points in both components (the points() style
helper of the source's test module). -/
def fixedTrack (q : ℚ) : NonRepeatedTrackSizingFunction :=
  ⟨SizingFunctionComponent.Fixed (LengthPercentage.Points q),
   SizingFunctionComponent.Fixed (LengthPercentage.Points q)⟩

/-- The number of tracks that one template entry contributes during the
explicit walk (a Single entry contributes one; an AutoRepeat entry
contributes the wrapped count unless its group is empty, in which case its
cycle() yields nothing). -/
def entryTrackCount (template_len explicit : Nat) : TrackSizingFunction → Nat
  | .Single _ => 1
  | .AutoRepeat _ g =>
    if g.isEmpty then 0 else u16sub explicit (u16sub (u16ofNat template_len) 1)

/-- A rectangle of absolute points lengths. -/
def pointsRect (r : Rect ℚ) : Rect LengthPercentage :=
  ⟨.Points r.left, .Points r.right, .Points r.top, .Points r.bottom⟩

/-- A template of fixed-size Single entries around one AutoFill repetition
of fixed-size tracks. -/
def fixedTemplate (pre grp post : List ℚ) : List TrackSizingFunction :=
  pre.map (fun q => TrackSizingFunction.Single (fixedTrack q)) ++
    TrackSizingFunction.AutoRepeat GridTrackRepetition.AutoFill (grp.map fixedTrack) ::
      post.map (fun q => TrackSizingFunction.Single (fixedTrack q))

/-- A style whose both axes carry a fixed AutoFill template, fixed points
padding, border and gap, and a definite preferred size s (min and max sizes
indefinite). -/
def fixedAutoFillStyle (pre grp post : List ℚ) (pad bor : Rect ℚ) (g : ℚ) (s : ℚ) : Style :=
  { grid_template_rows := fixedTemplate pre grp post
    grid_template_columns := fixedTemplate pre grp post
    size := ⟨some s, some s⟩
    padding := pointsRect pad
    border := pointsRect bor
    gap := ⟨.Points g, .Points g⟩ }

/-! Concrete inputs used by the witnesses and counterexamples below. -/

/-- The 120 x 80 container of the explicit_grid_sizing_auto_fill_exact_fit
test: repeat(AutoFill, [40]) columns and repeat(AutoFill, [20]) rows. -/
def scExactFit : Style :=
  { size := ⟨some 120, some 80⟩,
    grid_template_columns := [TrackSizingFunction.AutoRepeat .AutoFill [fixedTrack 40]],
    grid_template_rows := [TrackSizingFunction.AutoRepeat .AutoFill [fixedTrack 20]] }

/-- The 600 x 600 container of the explicit_grid_sizing_no_repeats test:
two fixed columns and four fixed rows, no repetition. -/
def scNoRepeats : Style :=
  { size := ⟨some 600, some 600⟩,
    grid_template_columns := [.Single (fixedTrack 1), .Single (fixedTrack 1)],
    grid_template_rows := [.Single (fixedTrack 1), .Single (fixedTrack 1),
      .Single (fixedTrack 1), .Single (fixedTrack 1)] }

/-- A no-repetition template with 65536 entries: its length does not survive
the `as u16` cast. -/
def scHugeTemplate : Style :=
  { grid_template_columns := List.replicate 65536 (TrackSizingFunction.Single (fixedTrack 10)) }

/-- A template with 65537 entries of which 65536 are auto-repetitions: the
AutoRepeat count reduces to 0 under the `as u16` cast. -/
def scManyRepeats : Style :=
  { grid_template_columns := TrackSizingFunction.Single (fixedTrack 10) ::
      List.replicate 65536 (TrackSizingFunction.AutoRepeat .AutoFill []) }

/-- A template with two auto-repetitions (an invalid configuration). -/
def scTwoRepeats : Style :=
  { grid_template_columns := [TrackSizingFunction.AutoRepeat .AutoFill [fixedTrack 1],
      TrackSizingFunction.AutoRepeat .AutoFill [fixedTrack 1]] }

/-- A 70000-wide container over repeat(AutoFill, [1, 1]): the resolved track
count 70000 exceeds the u16 range. -/
def scOverflowPair : Style :=
  { size := ⟨some 70000, some 70000⟩,
    grid_template_columns := [TrackSizingFunction.AutoRepeat .AutoFill
      [fixedTrack 1, fixedTrack 1]] }

/-- A 70000-wide container over repeat(AutoFill, [1]): the repetition
quotient 69999 saturates the u16 cast and the subsequent + 1 wraps to 0. -/
def scOverflowSingle : Style :=
  { size := ⟨some 70000, some 70000⟩,
    grid_template_columns := [TrackSizingFunction.AutoRepeat .AutoFill [fixedTrack 1]] }

/-- A family of styles over repeat(AutoFill, [1]) columns indexed by the
definite preferred width. -/
def scFillWidth (s : ℚ) : Style :=
  { size := ⟨some s, some s⟩,
    grid_template_columns := [TrackSizingFunction.AutoRepeat .AutoFill [fixedTrack 1]] }

end Taffy

namespace Taffy

/-! Arithmetic and list helper lemmas. -/

theorem u16ofNat_le (n : Nat) : u16ofNat n ≤ n := Nat.mod_le n 65536

theorem u16ofNat_lt (n : Nat) : u16ofNat n < 65536 := Nat.mod_lt n (by omega)

theorem u16ofNat_of_lt {n : Nat} (h : n < 65536) : u16ofNat n = n := Nat.mod_eq_of_lt h

theorem u16sub_eq {a b : Nat} (ha : a < 65536) (hb : b < 65536) (h : b ≤ a) :
    u16sub a b = a - b := by
  unfold u16sub
  omega

theorem countP_replicate {α : Type} (p : α → Bool) (a : α) (n : Nat) :
    List.countP p (List.replicate n a) = if p a then n else 0 := by
  induction n with
  | zero => simp
  | succ n ih =>
    rw [List.replicate_succ, List.countP_cons, ih]
    by_cases h : p a <;> simp [h]

theorem sumTracksOpt_append {α : Type} (f : α → Option ℚ) (l1 l2 : List α) {s1 s2 : ℚ}
    (h1 : sumTracksOpt f l1 = some s1) (h2 : sumTracksOpt f l2 = some s2) :
    sumTracksOpt f (l1 ++ l2) = some (s1 + s2) := by
  induction l1 generalizing s1 with
  | nil =>
    simp only [sumTracksOpt] at h1
    cases h1
    rw [List.nil_append, h2, zero_add]
  | cons a l1 ih =>
    simp only [List.cons_append, sumTracksOpt, List.append_eq] at h1 ⊢
    cases hfa : f a with
    | none => rw [hfa] at h1; exact absurd h1 (by simp)
    | some v =>
      rw [hfa] at h1
      cases hs : sumTracksOpt f l1 with
      | none => rw [hs] at h1; exact absurd h1 (by simp)
      | some t =>
        rw [hs] at h1
        rw [ih hs]
        simp only [Option.some.injEq] at h1 ⊢
        rw [← h1, add_assoc]

theorem track_definite_value_fixedTrack (q : ℚ) (parent : Option ℚ) :
    track_definite_value (fixedTrack q) parent = some q := by
  simp [track_definite_value, fixedTrack, SizingFunctionComponent.definite_value,
    LengthPercentage.maybe_resolve, maybeMin, Option.or]

/-- If the AutoRepeat count is positive, the find_map finds a repeated group
that belongs to the template. -/
theorem rep_def_exists (t : List TrackSizingFunction)
    (h : t.countP TrackSizingFunction.is_auto_repetition ≠ 0) :
    ∃ g, repetition_definition t = some g ∧
      ∃ k, TrackSizingFunction.AutoRepeat k g ∈ t := by
  induction t with
  | nil => simp [List.countP_nil] at h
  | cons a t ih =>
    cases a with
    | Single sf =>
      simp only [List.countP_cons, TrackSizingFunction.is_auto_repetition, if_neg,
        Bool.false_eq_true, if_false, add_zero] at h
      obtain ⟨g, hg, k, hmem⟩ := ih h
      exact ⟨g, by simp [repetition_definition, List.findSome?] at hg ⊢; exact hg,
        k, List.mem_cons_of_mem _ hmem⟩
    | AutoRepeat k g =>
      exact ⟨g, by simp [repetition_definition, List.findSome?], k, List.mem_cons_self _ _⟩

/-- If the AutoRepeat count reduces to zero under the u16 cast, the template
is treated as having no repetitions and the explicit count is the template
length cast to u16. -/
theorem compute_of_u16count_zero (style : Style) (axis : AbsoluteAxis)
    (h : u16ofNat ((style.grid_template_tracks axis).countP
      TrackSizingFunction.is_auto_repetition) = 0) :
    compute_explicit_grid_size_in_axis style axis =
      some (u16ofNat (style.grid_template_tracks axis).length) := by
  by_cases he : style.grid_template_tracks axis = []
  · simp [compute_explicit_grid_size_in_axis, he, u16ofNat]
  · simp only [compute_explicit_grid_size_in_axis]
    rw [if_neg (by simp [List.isEmpty_iff, he]), if_neg (by rw [h]; simp), if_pos h]

/-! Claim theorems. -/

/-- C2: the claim that neither operation can fail is contradicted by the
source: on line 167 initialize_grid_tracks computes max_count % min_count,
and min_count = min(auto_tracks.len(), negative_implicit) is zero whenever
auto_tracks is non-empty and negative_implicit is zero, so the call panics
with a remainder-by-zero.  Evaluating the model at such an input yields
none (the panic marker). -/
theorem claim_C2 :
    init_grid_tracks ⟨0, 0, 0⟩ [] [NonRepeatedTrackSizingFunction.AUTO]
      (LengthPercentage.Points 0) (fun _ => false) = none := rfl

/-- C5: the definite-value helper of lines 88-92 reads both its max-oriented
and its min-oriented candidate from the pair's max sizing function: its
result does not change when the min sizing function is replaced (any pair
with the same max component gives the same result), and it returns exactly
the max component's definite value whenever that value exists. -/
theorem claim_C5 (sf sf2 : NonRepeatedTrackSizingFunction) (parent : Option ℚ)
    (h : sf.max = sf2.max) :
    track_definite_value sf parent = track_definite_value sf2 parent ∧
    ∀ v : ℚ, sf.max.definite_value parent = some v →
      track_definite_value sf parent = some v := by
  constructor
  · simp only [track_definite_value, h]
  · intro v hv
    simp only [track_definite_value, hv]
    show some (maybeMin v (some v)) = some v
    simp [maybeMin, min_self]

/-- Witness for C5 at a concrete input: the pairs (Auto, Fixed 7 points) and
(Fixed 3 points, Fixed 7 points) share their max component, resolve to the
same definite value, and that value is the max component's 7. -/
theorem claim_C5_witness :
    ((⟨.Auto, .Fixed (.Points 7)⟩ : NonRepeatedTrackSizingFunction).max =
      (⟨.Fixed (.Points 3), .Fixed (.Points 7)⟩ : NonRepeatedTrackSizingFunction).max) ∧
    track_definite_value ⟨.Auto, .Fixed (.Points 7)⟩ none =
      track_definite_value ⟨.Fixed (.Points 3), .Fixed (.Points 7)⟩ none ∧
    track_definite_value ⟨.Auto, .Fixed (.Points 7)⟩ none = some 7 :=
  ⟨rfl, (claim_C5 ⟨.Auto, .Fixed (.Points 7)⟩ ⟨.Fixed (.Points 3), .Fixed (.Points 7)⟩ none rfl).1,
    (claim_C5 ⟨.Auto, .Fixed (.Points 7)⟩ ⟨.Fixed (.Points 3), .Fixed (.Points 7)⟩ none rfl).2 7 rfl⟩

/-- C7 (amended): when the per-axis template contains no AutoRepeat entry
the function returns the template's length reduced by the `as u16` cast,
i.e. mod 2 ^ 16; the two coincide for every template shorter than 65536
entries (and in particular in the 600 x 600 scenario). -/
theorem claim_C7 (style : Style) (axis : AbsoluteAxis)
    (h : (style.grid_template_tracks axis).countP TrackSizingFunction.is_auto_repetition = 0) :
    compute_explicit_grid_size_in_axis style axis =
      some (u16ofNat (style.grid_template_tracks axis).length) :=
  compute_of_u16count_zero style axis (by rw [h]; rfl)

/-- Counterexample for C7 as stated: a template of 65536 Single entries has
no AutoRepeat entry, yet the function returns 0, not the template length. -/
theorem claim_C7_counterexample :
    (scHugeTemplate.grid_template_tracks .Horizontal).countP
      TrackSizingFunction.is_auto_repetition = 0 ∧
    (scHugeTemplate.grid_template_tracks .Horizontal).length = 65536 ∧
    compute_explicit_grid_size_in_axis scHugeTemplate .Horizontal = some 0 ∧
    compute_explicit_grid_size_in_axis scHugeTemplate .Horizontal ≠
      some ((scHugeTemplate.grid_template_tracks .Horizontal).length) := by
  have hc : (scHugeTemplate.grid_template_tracks .Horizontal).countP
      TrackSizingFunction.is_auto_repetition = 0 := by
    rw [show scHugeTemplate.grid_template_tracks .Horizontal =
      List.replicate 65536 (TrackSizingFunction.Single (fixedTrack 10)) from rfl,
      countP_replicate]
    simp [TrackSizingFunction.is_auto_repetition]
  have hl : (scHugeTemplate.grid_template_tracks .Horizontal).length = 65536 := by
    rw [show scHugeTemplate.grid_template_tracks .Horizontal =
      List.replicate 65536 (TrackSizingFunction.Single (fixedTrack 10)) from rfl]
    exact List.length_replicate 65536 _
  have hz : compute_explicit_grid_size_in_axis scHugeTemplate .Horizontal = some 0 := by
    rw [compute_of_u16count_zero scHugeTemplate .Horizontal (by rw [hc]; rfl), hl]
    rfl
  exact ⟨hc, hl, hz, by rw [hz, hl]; simp⟩

/-- Witness for C7 at the 600 x 600 scenario of the source's test suite:
no-repeat templates with 2 columns and 4 rows give explicit width 2 and
height 4. -/
theorem claim_C7_witness :
    (scNoRepeats.grid_template_tracks .Horizontal).countP
      TrackSizingFunction.is_auto_repetition = 0 ∧
    compute_explicit_grid_size_in_axis scNoRepeats .Horizontal = some 2 ∧
    compute_explicit_grid_size_in_axis scNoRepeats .Vertical = some 4 :=
  ⟨rfl, by rw [claim_C7 scNoRepeats .Horizontal rfl]; rfl,
    by rw [claim_C7 scNoRepeats .Vertical rfl]; rfl⟩

/-- C6 (amended): the function returns 0 for an empty template, for a
template whose AutoRepeat-entry count reduced by the `as u16` cast exceeds
one, for one whose reduced count is one while some sizing function lacks a
fixed component, and for one with exactly one AutoRepeat entry whose
repeated group is empty.  (As stated the claim used the untruncated count;
the cast makes that reading false, see the counterexample.) -/
theorem claim_C6 (style : Style) (axis : AbsoluteAxis)
    (h : style.grid_template_tracks axis = [] ∨
      1 < u16ofNat ((style.grid_template_tracks axis).countP
        TrackSizingFunction.is_auto_repetition) ∨
      (u16ofNat ((style.grid_template_tracks axis).countP
          TrackSizingFunction.is_auto_repetition) = 1 ∧
        all_track_defs_have_fixed_component (style.grid_template_tracks axis) = false) ∨
      ((style.grid_template_tracks axis).countP TrackSizingFunction.is_auto_repetition = 1 ∧
        ∀ k g, TrackSizingFunction.AutoRepeat k g ∈ style.grid_template_tracks axis →
          g = [])) :
    compute_explicit_grid_size_in_axis style axis = some 0 := by
  rcases h with he | hgt | ⟨h1, hfix⟩ | ⟨h1, hempty⟩
  · simp [compute_explicit_grid_size_in_axis, he]
  · have hne : style.grid_template_tracks axis ≠ [] := by
      intro he
      rw [he] at hgt
      simp [u16ofNat] at hgt
    simp only [compute_explicit_grid_size_in_axis]
    rw [if_neg (by simp [List.isEmpty_iff, hne]), if_pos]
    rintro (h0 | ⟨h1, _⟩) <;> omega
  · have hne : style.grid_template_tracks axis ≠ [] := by
      intro he
      rw [he] at h1
      simp [u16ofNat] at h1
    simp only [compute_explicit_grid_size_in_axis]
    rw [if_neg (by simp [List.isEmpty_iff, hne]), if_pos]
    rintro (h0 | ⟨_, hfx⟩)
    · omega
    · rw [hfix] at hfx
      exact absurd hfx (by simp)
  · have hne : style.grid_template_tracks axis ≠ [] := by
      intro he
      rw [he] at h1
      simp at h1
    have hu : u16ofNat ((style.grid_template_tracks axis).countP
        TrackSizingFunction.is_auto_repetition) = 1 := by rw [h1]; rfl
    obtain ⟨g, hg, k, hmem⟩ := rep_def_exists _ (by rw [h1]; omega)
    have hge : g = [] := hempty k g hmem
    by_cases hfx : all_track_defs_have_fixed_component (style.grid_template_tracks axis) = true
    · simp only [compute_explicit_grid_size_in_axis]
      rw [if_neg (by simp [List.isEmpty_iff, hne]),
        if_neg (by rw [not_not]; exact Or.inr ⟨hu, hfx⟩), if_neg (by rw [hu]; simp), hg, hge]
      rfl
    · simp only [compute_explicit_grid_size_in_axis]
      rw [if_neg (by simp [List.isEmpty_iff, hne]), if_pos]
      rintro (h0 | ⟨_, hfx2⟩)
      · rw [hu] at h0; omega
      · exact hfx hfx2

/-- Counterexample for C6 as stated: a template with 65537 entries of which
65536 are AutoRepeat entries has more than one AutoRepeat entry, yet the
`as u16` cast reduces the count to 0, the template passes validation as a
no-repetition template, and the function returns 1, not 0. -/
theorem claim_C6_counterexample :
    1 < (scManyRepeats.grid_template_tracks .Horizontal).countP
      TrackSizingFunction.is_auto_repetition ∧
    compute_explicit_grid_size_in_axis scManyRepeats .Horizontal = some 1 ∧
    compute_explicit_grid_size_in_axis scManyRepeats .Horizontal ≠ some 0 := by
  have hc : (scManyRepeats.grid_template_tracks .Horizontal).countP
      TrackSizingFunction.is_auto_repetition = 65536 := by
    rw [show scManyRepeats.grid_template_tracks .Horizontal =
      TrackSizingFunction.Single (fixedTrack 10) ::
        List.replicate 65536 (TrackSizingFunction.AutoRepeat .AutoFill []) from rfl,
      List.countP_cons, countP_replicate]
    simp [TrackSizingFunction.is_auto_repetition]
  have hl : (scManyRepeats.grid_template_tracks .Horizontal).length = 65537 := by
    rw [show scManyRepeats.grid_template_tracks .Horizontal =
      TrackSizingFunction.Single (fixedTrack 10) ::
        List.replicate 65536 (TrackSizingFunction.AutoRepeat .AutoFill []) from rfl,
      List.length_cons, List.length_replicate]
  have hone : compute_explicit_grid_size_in_axis scManyRepeats .Horizontal = some 1 := by
    rw [compute_of_u16count_zero scManyRepeats .Horizontal (by rw [hc]; rfl), hl]
    rfl
  exact ⟨by omega, hone, by rw [hone]; simp⟩

/-- Witness for C6 at a concrete invalid template: two AutoRepeat entries
degrade to zero explicit tracks. -/
theorem claim_C6_witness :
    1 < u16ofNat ((scTwoRepeats.grid_template_tracks .Horizontal).countP
      TrackSizingFunction.is_auto_repetition) ∧
    compute_explicit_grid_size_in_axis scTwoRepeats .Horizontal = some 0 :=
  ⟨by decide, claim_C6 scTwoRepeats .Horizontal (Or.inr (Or.inl (by decide)))⟩

end Taffy

namespace Taffy

theorem intToU16sat_le (i : ℤ) : intToU16sat i ≤ 65535 := by
  unfold intToU16sat
  split
  · omega
  · exact Nat.min_le_left 65535 _

/-- C9: the count arithmetic of compute_explicit_grid_size_in_axis is
16-bit: the float-to-u16 casts saturate at 65535 (and send the NaN arising
from 0.0/0.0 to 0), and at a concrete input — a 70000-wide definite
container over repeat(AutoFill, [1, 1]) — the resolved repetition count is
35000, the mathematically intended track count 0 + 2 * 35000 = 70000
exceeds the u16 range, and the function returns it reduced mod 2 ^ 16. -/
theorem claim_C9 :
    (∀ a b : ℚ, divCastFloor a b ≤ 65535) ∧
    (∀ a b : ℚ, divCastCeil a b ≤ 65535) ∧
    divCastFloor 0 0 = 0 ∧ divCastCeil 0 0 = 0 ∧
    num_repetitions scOverflowPair .Horizontal 0 2 [fixedTrack 1, fixedTrack 1] = some 35000 ∧
    compute_explicit_grid_size_in_axis scOverflowPair .Horizontal =
      some ((0 + 2 * 35000) % 65536) ∧
    65535 < 0 + 2 * 35000 := by
  refine ⟨?_, ?_, by norm_num [divCastFloor], by norm_num [divCastCeil], ?_, ?_, by norm_num⟩
  · intro a b
    unfold divCastFloor
    split
    · split
      · omega
      · split <;> omega
    · exact intToU16sat_le _
  · intro a b
    unfold divCastCeil
    split
    · split
      · omega
      · split <;> omega
    · exact intToU16sat_le _
  · norm_num [num_repetitions, scOverflowPair, Style.grid_template_tracks,
      inner_container_size, outer_container_size, maybeMinOpt, maybeMin, Size.get_abs,
      Rect.resolve_or_zero, Rect.grid_axis_sum, LengthPercentage.resolve_or_zero,
      LengthPercentage.maybe_resolve, non_repeating_track_used_space,
      per_repetition_track_used_space, sumTracksOpt, track_definite_value,
      SizingFunctionComponent.definite_value, fixedTrack, size_is_maximum, divCastFloor,
      divCastCeil, intToU16sat, u16ofNat, Int.toNat_ofNat]
    omega
  · norm_num [compute_explicit_grid_size_in_axis, scOverflowPair, Style.grid_template_tracks,
      TrackSizingFunction.is_auto_repetition, all_track_defs_have_fixed_component,
      NonRepeatedTrackSizingFunction.has_fixed_component, SizingFunctionComponent.is_fixed,
      fixedTrack, repetition_definition, num_repetitions, inner_container_size,
      outer_container_size, maybeMinOpt, maybeMin, Size.get_abs, Rect.resolve_or_zero,
      Rect.grid_axis_sum, LengthPercentage.resolve_or_zero, LengthPercentage.maybe_resolve,
      non_repeating_track_used_space, per_repetition_track_used_space, sumTracksOpt,
      track_definite_value, SizingFunctionComponent.definite_value,
      NonRepeatedTrackSizingFunction.min_sizing_function,
      NonRepeatedTrackSizingFunction.max_sizing_function,
      size_is_maximum, divCastFloor, divCastCeil, intToU16sat, u16ofNat, u16sub,
      List.countP_cons, List.findSome?, Int.toNat_ofNat]
    omega

end Taffy

namespace Taffy

/-! Structural lemmas about the produced track sequence. -/

theorem pairsList_length (xs : List (GridTrack × GridTrack)) :
    (pairsList xs).length = 2 * xs.length := by
  induction xs with
  | nil => rfl
  | cons p xs ih => simp only [pairsList, List.length_cons, ih]; omega

theorem pairsList_append (xs ys : List (GridTrack × GridTrack)) :
    pairsList (xs ++ ys) = pairsList xs ++ pairsList ys := by
  induction xs with
  | nil => rfl
  | cons p xs ih => simp only [List.cons_append, pairsList, List.append_eq, ih]

theorem implicitPairs_length (count : Nat) (f : Nat → NonRepeatedTrackSizingFunction)
    (gap : LengthPercentage) : (implicitPairs count f gap).length = count := by
  simp [implicitPairs]

theorem implicitPairs_kinds (count : Nat) (f : Nat → NonRepeatedTrackSizingFunction)
    (gap : LengthPercentage) :
    ∀ q ∈ implicitPairs count f gap, q.1.kind = GridTrackKind.Track ∧
      q.2.kind = GridTrackKind.Gutter := by
  intro q hq
  simp only [implicitPairs, List.mem_map] at hq
  obtain ⟨i, _, rfl⟩ := hq
  exact ⟨rfl, rfl⟩

theorem gutterTrackPattern_length (n : Nat) : (gutterTrackPattern n).length = 2 * n + 1 := by
  induction n with
  | zero => rfl
  | succ n ih => simp only [gutterTrackPattern, List.length_cons, ih]; omega

theorem collapse_kind (t : GridTrack) : (GridTrack.collapse t).kind = t.kind := rfl

theorem collapse_collapsed (t : GridTrack) : (GridTrack.collapse t).is_collapsed = true := rfl

theorem map_kind_gutter_pairs (xs : List (GridTrack × GridTrack)) :
    ∀ g : GridTrack, g.kind = GridTrackKind.Gutter →
    (∀ q ∈ xs, q.1.kind = GridTrackKind.Track ∧ q.2.kind = GridTrackKind.Gutter) →
    (g :: pairsList xs).map (fun t => t.kind) = gutterTrackPattern xs.length := by
  induction xs with
  | nil =>
    intro g hg _
    simp [pairsList, gutterTrackPattern, hg]
  | cons p xs ih =>
    intro g hg hx
    have hp := hx p (List.mem_cons_self p xs)
    have hrest : ∀ q ∈ xs, q.1.kind = GridTrackKind.Track ∧ q.2.kind = GridTrackKind.Gutter :=
      fun q hq => hx q (List.mem_cons_of_mem p hq)
    simp only [pairsList, List.map_cons, List.length_cons, gutterTrackPattern, hg, hp.1]
    have := ih p.2 hp.2 hrest
    simp only [List.map_cons] at this
    rw [← this]

theorem get_map_kind :
    ∀ (l : List GridTrack) (i : Nat) (h1 : i < (l.map (fun t => t.kind)).length)
      (h2 : i < l.length),
      (l.map (fun t => t.kind)).get ⟨i, h1⟩ = (l.get ⟨i, h2⟩).kind := by
  intro l
  induction l with
  | nil => intro i h1 _; simp at h1
  | cons t l ih =>
    intro i h1 h2
    cases i with
    | zero => rfl
    | succ i => exact ih i (by simpa using h1) (by simpa using h2)

theorem gutterTrackPattern_get (n : Nat) :
    ∀ (i : Nat) (h : i < (gutterTrackPattern n).length),
      (gutterTrackPattern n).get ⟨i, h⟩ =
        if i % 2 = 0 then GridTrackKind.Gutter else GridTrackKind.Track := by
  induction n with
  | zero =>
    intro i h
    rw [gutterTrackPattern_length] at h
    interval_cases i
    rfl
  | succ n ih =>
    intro i h
    match i with
    | 0 => rfl
    | 1 => rfl
    | i + 2 =>
      have h2 : i < (gutterTrackPattern n).length := by
        rw [gutterTrackPattern_length] at h ⊢
        omega
      have : (gutterTrackPattern (n + 1)).get ⟨i + 2, h⟩ = (gutterTrackPattern n).get ⟨i, h2⟩ :=
        rfl
      rw [this, ih i h2, Nat.add_mod_right]

theorem collapseFirst_map_kind (l : List GridTrack) :
    (collapseFirst l).map (fun t => t.kind) = l.map (fun t => t.kind) := by
  cases l with
  | nil => rfl
  | cons t rest => simp [collapseFirst, collapse_kind]

theorem collapseLast_map_kind (l : List GridTrack) :
    (collapseLast l).map (fun t => t.kind) = l.map (fun t => t.kind) := by
  induction l with
  | nil => rfl
  | cons t rest ih =>
    cases rest with
    | nil => simp [collapseLast, collapse_kind]
    | cons u r =>
      show (t :: collapseLast (u :: r)).map (fun t => t.kind) = _
      simp only [List.map_cons]
      rw [show (collapseLast (u :: r)).map (fun t => t.kind) =
        (u :: r).map (fun t => t.kind) from ih]
      simp

theorem collapseFirst_length (l : List GridTrack) : (collapseFirst l).length = l.length := by
  have := congrArg List.length (collapseFirst_map_kind l)
  simpa using this

theorem collapseLast_length (l : List GridTrack) : (collapseLast l).length = l.length := by
  have := congrArg List.length (collapseLast_map_kind l)
  simpa using this

theorem collapseLast_ne_nil (l : List GridTrack) (h : l ≠ []) : collapseLast l ≠ [] := by
  intro hc
  have := collapseLast_length l
  rw [hc] at this
  exact h (List.length_eq_zero.mp this.symm)

theorem collapseLast_getLast? (l : List GridTrack) :
    (collapseLast l).getLast? = l.getLast?.map GridTrack.collapse := by
  induction l with
  | nil => rfl
  | cons t rest ih =>
    cases rest with
    | nil => rfl
    | cons u r =>
      show (t :: collapseLast (u :: r)).getLast? = _
      cases hcl : collapseLast (u :: r) with
      | nil => exact absurd hcl (collapseLast_ne_nil (u :: r) (by simp))
      | cons c cs =>
        rw [List.getLast?_cons_cons, ← hcl, ih, List.getLast?_cons_cons]

/-- C3: whenever initialize_grid_tracks completes, the produced sequence is
non-empty and its first and last entries are collapsed (for every input,
including zero gap and all-zero counts; the boundary collapse of lines
216-218 runs unconditionally). -/
theorem claim_C3 (counts : TrackCounts) (track_template : List TrackSizingFunction)
    (auto_tracks : List NonRepeatedTrackSizingFunction) (gap : LengthPercentage)
    (track_has_items : Nat → Bool) (l : List GridTrack)
    (h : init_grid_tracks counts track_template auto_tracks gap track_has_items = some l) :
    l ≠ [] ∧
    (∀ t, l.head? = some t → t.is_collapsed = true) ∧
    (∀ t, l.getLast? = some t → t.is_collapsed = true) := by
  have hfull : ∃ res, init_grid_tracks_full counts track_template auto_tracks gap
      track_has_items = some res ∧ res.1 = l := by
    unfold init_grid_tracks at h
    cases hr : init_grid_tracks_full counts track_template auto_tracks gap track_has_items with
    | none => rw [hr] at h; exact absurd h (by simp)
    | some res => rw [hr] at h; exact ⟨res, rfl, by simpa using h⟩
  obtain ⟨res, hres, hl⟩ := hfull
  have hshape : ∃ body : List GridTrack, res.1 = collapseLast (GridTrack.collapse
      (GridTrack.gutter gap) :: body) := by
    unfold init_grid_tracks_full at hres
    obtain ⟨negPairs, _, rfl⟩ := Option.map_eq_some'.mp hres
    exact ⟨_, rfl⟩
  obtain ⟨body, hbody⟩ := hshape
  rw [hl] at hbody
  subst hbody
  refine ⟨collapseLast_ne_nil _ (by simp), ?_, ?_⟩
  · intro t ht
    cases body with
    | nil =>
      simp only [collapseLast, List.head?_cons, Option.some.injEq] at ht
      rw [← ht]
      rfl
    | cons u r =>
      rw [show collapseLast (GridTrack.collapse (GridTrack.gutter gap) :: u :: r) =
        GridTrack.collapse (GridTrack.gutter gap) :: collapseLast (u :: r) from rfl] at ht
      simp only [List.head?_cons, Option.some.injEq] at ht
      rw [← ht]
      rfl
  · intro t ht
    rw [collapseLast_getLast?] at ht
    obtain ⟨y, _, rfl⟩ := Option.map_eq_some'.mp ht
    rfl

/-- Witness for C3 at the all-zero input with a zero gap: the sequence is
the single doubly-collapsed boundary gutter. -/
theorem claim_C3_witness :
    init_grid_tracks ⟨0, 0, 0⟩ [] [] (LengthPercentage.Points 0) (fun _ => false) =
      some [⟨GridTrackKind.Gutter, .Fixed (.Points 0), .Fixed (.Points 0), true⟩] ∧
    ([⟨GridTrackKind.Gutter, .Fixed (.Points 0), .Fixed (.Points 0), true⟩] :
      List GridTrack) ≠ [] ∧
    (∀ t, ([⟨GridTrackKind.Gutter, .Fixed (.Points 0), .Fixed (.Points 0), true⟩] :
      List GridTrack).head? = some t → t.is_collapsed = true) ∧
    (∀ t, ([⟨GridTrackKind.Gutter, .Fixed (.Points 0), .Fixed (.Points 0), true⟩] :
      List GridTrack).getLast? = some t → t.is_collapsed = true) := by
  have h : init_grid_tracks ⟨0, 0, 0⟩ [] [] (LengthPercentage.Points 0) (fun _ => false) =
      some [⟨GridTrackKind.Gutter, .Fixed (.Points 0), .Fixed (.Points 0), true⟩] := rfl
  have hc := claim_C3 ⟨0, 0, 0⟩ [] [] (LengthPercentage.Points 0) (fun _ => false) _ h
  exact ⟨h, hc.1, hc.2.1, hc.2.2⟩

end Taffy

namespace Taffy

/-! Lemmas about the explicit template walk. -/

theorem explicitWalk_fst_length (L E : Nat) (gap : LengthPercentage) (p : Nat → Bool) :
    ∀ (ts : List TrackSizingFunction) (idx : Nat),
      (explicitWalk L E gap p ts idx).1.length = (ts.map (entryTrackCount L E)).sum := by
  intro ts
  induction ts with
  | nil => intro idx; rfl
  | cons a rest ih =>
    intro idx
    cases a with
    | Single sf =>
      simp only [explicitWalk, List.map_cons, List.sum_cons, entryTrackCount,
        List.length_cons, ih]
      omega
    | AutoRepeat k g =>
      simp only [explicitWalk, List.map_cons, List.sum_cons, entryTrackCount,
        List.length_append, List.length_map, List.length_range, ih]

theorem explicitWalk_fst_kinds (L E : Nat) (gap : LengthPercentage) (p : Nat → Bool) :
    ∀ (ts : List TrackSizingFunction) (idx : Nat),
      ∀ q ∈ (explicitWalk L E gap p ts idx).1,
        q.1.kind = GridTrackKind.Track ∧ q.2.kind = GridTrackKind.Gutter := by
  intro ts
  induction ts with
  | nil => intro idx q hq; simp [explicitWalk] at hq
  | cons a rest ih =>
    intro idx q hq
    cases a with
    | Single sf =>
      simp only [explicitWalk, List.mem_cons] at hq
      rcases hq with rfl | hq
      · exact ⟨rfl, rfl⟩
      · exact ih _ q hq
    | AutoRepeat k g =>
      simp only [explicitWalk, List.mem_append, List.mem_map, List.mem_range] at hq
      rcases hq with ⟨j, _, rfl⟩ | hq
      · split <;> exact ⟨rfl, rfl⟩
      · exact ih _ q hq

theorem explicitWalk_log_bound (L E : Nat) (gap : LengthPercentage) (p : Nat → Bool) :
    ∀ (ts : List TrackSizingFunction) (idx x : Nat),
      x ∈ (explicitWalk L E gap p ts idx).2 →
      idx ≤ x ∧ x < idx + (explicitWalk L E gap p ts idx).1.length := by
  intro ts
  induction ts with
  | nil => intro idx x hx; simp [explicitWalk] at hx
  | cons a rest ih =>
    intro idx x hx
    cases a with
    | Single sf =>
      simp only [explicitWalk] at hx ⊢
      have := ih (idx + 1) x hx
      simp only [List.length_cons]
      omega
    | AutoRepeat k g =>
      simp only [explicitWalk, List.mem_append] at hx ⊢
      simp only [List.length_append, List.length_map, List.length_range]
      rcases hx with hx | hx
      · revert hx
        split
        · intro hx
          simp only [List.mem_map, List.mem_range] at hx
          obtain ⟨j, hj, rfl⟩ := hx
          omega
        · intro hx
          simp at hx
      · have := ih _ x hx
        omega

theorem explicitWalk_log_pairwise (L E : Nat) (gap : LengthPercentage) (p : Nat → Bool) :
    ∀ (ts : List TrackSizingFunction) (idx : Nat),
      (explicitWalk L E gap p ts idx).2.Pairwise (· < ·) := by
  intro ts
  induction ts with
  | nil => intro idx; simp [explicitWalk]
  | cons a rest ih =>
    intro idx
    cases a with
    | Single sf => simpa only [explicitWalk] using ih (idx + 1)
    | AutoRepeat k g =>
      simp only [explicitWalk]
      rw [List.pairwise_append]
      refine ⟨?_, ih _, ?_⟩
      · split
        · rw [List.pairwise_map]
          exact (List.pairwise_lt_range _).imp fun hab => by omega
        · exact List.Pairwise.nil
      · intro x hx y hy
        have hy2 := explicitWalk_log_bound L E gap p rest _ y hy
        revert hx
        split
        · intro hx
          simp only [List.mem_map, List.mem_range] at hx
          obtain ⟨j, hj, rfl⟩ := hx
          omega
        · intro hx
          simp at hx

theorem explicitWalk_log_nil (L E : Nat) (gap : LengthPercentage) (p : Nat → Bool) :
    ∀ (ts : List TrackSizingFunction) (idx : Nat),
      (∀ k g, TrackSizingFunction.AutoRepeat k g ∈ ts → k = GridTrackRepetition.AutoFill) →
      (explicitWalk L E gap p ts idx).2 = [] := by
  intro ts
  induction ts with
  | nil => intro idx _; rfl
  | cons a rest ih =>
    intro idx h
    cases a with
    | Single sf =>
      exact ih (idx + 1) fun k g hg => h k g (List.mem_cons_of_mem _ hg)
    | AutoRepeat k g =>
      have hk : k = GridTrackRepetition.AutoFill := h k g (List.mem_cons_self _ _)
      subst hk
      simp only [explicitWalk]
      rw [if_neg (by simp), List.nil_append]
      exact ih _ fun k2 g2 hg2 => h k2 g2 (List.mem_cons_of_mem _ hg2)

theorem sum_entryTrackCount_no_rep (L E : Nat) :
    ∀ ts : List TrackSizingFunction,
      ts.countP TrackSizingFunction.is_auto_repetition = 0 →
      (ts.map (entryTrackCount L E)).sum = ts.length := by
  intro ts
  induction ts with
  | nil => intro _; rfl
  | cons a rest ih =>
    intro h
    cases a with
    | Single sf =>
      simp only [List.countP_cons, TrackSizingFunction.is_auto_repetition,
        Bool.false_eq_true, if_false, add_zero] at h
      simp only [List.map_cons, List.sum_cons, entryTrackCount, List.length_cons, ih h]
      omega
    | AutoRepeat k g =>
      simp only [List.countP_cons, TrackSizingFunction.is_auto_repetition, if_pos] at h
      omega

theorem sum_entryTrackCount_one_rep (L E : Nat) :
    ∀ ts : List TrackSizingFunction,
      ts.countP TrackSizingFunction.is_auto_repetition = 1 →
      (∀ k g, TrackSizingFunction.AutoRepeat k g ∈ ts → g ≠ []) →
      (ts.map (entryTrackCount L E)).sum =
        (ts.length - 1) + u16sub E (u16sub (u16ofNat L) 1) := by
  intro ts
  induction ts with
  | nil => intro h _; simp at h
  | cons a rest ih =>
    intro h hne
    cases a with
    | Single sf =>
      simp only [List.countP_cons, TrackSizingFunction.is_auto_repetition,
        Bool.false_eq_true, if_false, add_zero] at h
      have hlen : 1 ≤ rest.length := le_trans (by rw [h]) (List.countP_le_length _)
      simp only [List.map_cons, List.sum_cons, entryTrackCount, List.length_cons,
        ih h (fun k g hg => hne k g (List.mem_cons_of_mem _ hg))]
      omega
    | AutoRepeat k g =>
      simp only [List.countP_cons, TrackSizingFunction.is_auto_repetition, if_pos] at h
      have h0 : rest.countP TrackSizingFunction.is_auto_repetition = 0 := by omega
      have hg : g ≠ [] := hne k g (List.mem_cons_self _ _)
      simp only [List.map_cons, List.sum_cons, entryTrackCount, List.length_cons,
        sum_entryTrackCount_no_rep L E rest h0]
      rw [if_neg (by simp [List.isEmpty_iff, hg])]
      omega

/-- Under a template-consistent explicit count the walk emits exactly
counts.explicit tracks. -/
theorem walk_length_explicit (template : List TrackSizingFunction) (E : Nat)
    (gap : LengthPercentage) (p : Nat → Bool) (idx : Nat) (hE : E < 65536)
    (hcons : (template.countP TrackSizingFunction.is_auto_repetition = 0 ∧
        E = template.length) ∨
      (template.countP TrackSizingFunction.is_auto_repetition = 1 ∧
        (∀ k g, TrackSizingFunction.AutoRepeat k g ∈ template → g ≠ []) ∧
        template.length ≤ E)) :
    (explicitWalk template.length E gap p template idx).1.length = E := by
  rw [explicitWalk_fst_length]
  rcases hcons with ⟨h0, hE2⟩ | ⟨h1, hne, hle⟩
  · rw [sum_entryTrackCount_no_rep _ _ _ h0, hE2]
  · rw [sum_entryTrackCount_one_rep _ _ _ h1 hne]
    have hlen1 : 1 ≤ template.length := le_trans (by rw [h1]) (List.countP_le_length _)
    have hlenlt : template.length < 65536 := lt_of_le_of_lt hle hE
    rw [u16ofNat_of_lt hlenlt, u16sub_eq hlenlt (by omega) hlen1,
      u16sub_eq hE (by omega) (by omega)]
    omega

/-- The shape of every successful initializer result: a leading gutter, the
three emission phases as (track, gutter) pairs, and the boundary collapse. -/
theorem init_full_spec (counts : TrackCounts) (track_template : List TrackSizingFunction)
    (auto_tracks : List NonRepeatedTrackSizingFunction) (gap : LengthPercentage)
    (track_has_items : Nat → Bool) (res : List GridTrack × List Nat)
    (h : init_grid_tracks_full counts track_template auto_tracks gap track_has_items =
      some res) :
    ∃ f1 f2 : Nat → NonRepeatedTrackSizingFunction,
      res = (collapseLast (collapseFirst (GridTrack.gutter gap ::
          (pairsList (implicitPairs counts.negative_implicit f1 gap) ++
            pairsList (if 0 < counts.explicit then
                explicitWalk track_template.length counts.explicit gap track_has_items
                  track_template counts.negative_implicit
              else ([], [])).1 ++
            pairsList (implicitPairs counts.positive_implicit f2 gap)))),
        (if 0 < counts.explicit then
            explicitWalk track_template.length counts.explicit gap track_has_items
              track_template counts.negative_implicit
          else ([], [])).2) := by
  unfold init_grid_tracks_full at h
  obtain ⟨negPairs, hneg, rfl⟩ := Option.map_eq_some'.mp h
  by_cases hae : auto_tracks.isEmpty
  · rw [if_pos hae] at hneg
    refine ⟨fun _ => NonRepeatedTrackSizingFunction.AUTO,
      fun _ => NonRepeatedTrackSizingFunction.AUTO, ?_⟩
    have h2 := Option.some.inj hneg
    subst h2
    simp only [hae, if_true]
  · rw [if_neg hae] at hneg
    by_cases hmin : min auto_tracks.length counts.negative_implicit = 0
    · rw [if_pos hmin] at hneg
      exact absurd hneg (by simp)
    · rw [if_neg hmin] at hneg
      refine ⟨fun i => auto_tracks.getD
          ((max auto_tracks.length counts.negative_implicit %
            min auto_tracks.length counts.negative_implicit + i) % auto_tracks.length)
          NonRepeatedTrackSizingFunction.AUTO,
        fun i => auto_tracks.getD (i % auto_tracks.length)
          NonRepeatedTrackSizingFunction.AUTO, ?_⟩
      have h2 := Option.some.inj hneg
      subst h2
      have hae2 : auto_tracks.isEmpty = false := by
        revert hae
        cases auto_tracks.isEmpty <;> simp
      simp only [hae2, Bool.false_eq_true, if_false]

theorem get_kind_of_map_eq (l : List GridTrack) (pat : List GridTrackKind)
    (h : l.map (fun t => t.kind) = pat) (i : Nat) (hi : i < l.length) (hp : i < pat.length) :
    (l.get ⟨i, hi⟩).kind = pat.get ⟨i, hp⟩ := by
  induction l generalizing pat i with
  | nil => simp at hi
  | cons t rest ih =>
    cases pat with
    | nil => simp at hp
    | cons k pk =>
      simp only [List.map_cons, List.cons.injEq] at h
      cases i with
      | zero => exact h.1
      | succ i => exact ih pk h.2 i (by simpa using hi) (by simpa using hp)

theorem init_tracks_eq (counts : TrackCounts) (track_template : List TrackSizingFunction)
    (auto_tracks : List NonRepeatedTrackSizingFunction) (gap : LengthPercentage)
    (track_has_items : Nat → Bool) (l : List GridTrack)
    (h : init_grid_tracks counts track_template auto_tracks gap track_has_items = some l) :
    ∃ log, init_grid_tracks_full counts track_template auto_tracks gap track_has_items =
      some (l, log) := by
  unfold init_grid_tracks at h
  obtain ⟨res, hres, hl⟩ := Option.map_eq_some'.mp h
  refine ⟨res.2, ?_⟩
  rw [hres, ← hl]

theorem calls_eq (counts : TrackCounts) (track_template : List TrackSizingFunction)
    (auto_tracks : List NonRepeatedTrackSizingFunction) (gap : LengthPercentage)
    (track_has_items : Nat → Bool) (log : List Nat)
    (h : track_has_items_calls counts track_template auto_tracks gap track_has_items =
      some log) :
    ∃ l, init_grid_tracks_full counts track_template auto_tracks gap track_has_items =
      some (l, log) := by
  unfold track_has_items_calls at h
  obtain ⟨res, hres, hl⟩ := Option.map_eq_some'.mp h
  refine ⟨res.1, ?_⟩
  rw [hres, ← hl]

/-- C1 (amended): for every completing call whose counts are consistent
with the template — explicit = 0, or no AutoRepeat entry and explicit equal
to the template length, or exactly one AutoRepeat entry with a non-empty
repeated group and explicit at least the template length (the non-emptiness
condition is forced by the counterexample below; explicit < 2^16 is the u16
range its Rust type guarantees) — the produced sequence has length
2 * (negative_implicit + explicit + positive_implicit) + 1 and strictly
alternates Gutter, Track, ..., Gutter. -/
theorem claim_C1 (counts : TrackCounts) (track_template : List TrackSizingFunction)
    (auto_tracks : List NonRepeatedTrackSizingFunction) (gap : LengthPercentage)
    (track_has_items : Nat → Bool) (l : List GridTrack)
    (hE : counts.explicit < 65536)
    (hcons : counts.explicit = 0 ∨
      (track_template.countP TrackSizingFunction.is_auto_repetition = 0 ∧
        counts.explicit = track_template.length) ∨
      (track_template.countP TrackSizingFunction.is_auto_repetition = 1 ∧
        (∀ k g, TrackSizingFunction.AutoRepeat k g ∈ track_template → g ≠ []) ∧
        track_template.length ≤ counts.explicit))
    (h : init_grid_tracks counts track_template auto_tracks gap track_has_items = some l) :
    l.length = 2 * (counts.negative_implicit + counts.explicit + counts.positive_implicit)
      + 1 ∧
    ∀ (i : Nat) (hi : i < l.length),
      (l.get ⟨i, hi⟩).kind =
        if i % 2 = 0 then GridTrackKind.Gutter else GridTrackKind.Track := by
  obtain ⟨log, hres⟩ := init_tracks_eq counts track_template auto_tracks gap
    track_has_items l h
  obtain ⟨f1, f2, hspec⟩ := init_full_spec counts track_template auto_tracks gap
    track_has_items (l, log) hres
  rw [Prod.mk.injEq] at hspec
  obtain ⟨hl2, -⟩ := hspec
  subst hl2
  have hW : (if 0 < counts.explicit then
      explicitWalk track_template.length counts.explicit gap track_has_items track_template
        counts.negative_implicit
    else ([], [])).1.length = counts.explicit := by
    by_cases hpos : 0 < counts.explicit
    · rw [if_pos hpos]
      refine walk_length_explicit track_template counts.explicit gap track_has_items
        counts.negative_implicit hE ?_
      rcases hcons with h0 | h2 | h3
      · omega
      · exact Or.inl h2
      · exact Or.inr h3
    · rw [if_neg hpos]
      simp only [List.length_nil]
      omega
  have hkindpairs : ∀ q ∈ implicitPairs counts.negative_implicit f1 gap ++
      (if 0 < counts.explicit then
        explicitWalk track_template.length counts.explicit gap track_has_items track_template
          counts.negative_implicit
      else ([], [])).1 ++ implicitPairs counts.positive_implicit f2 gap,
      q.1.kind = GridTrackKind.Track ∧ q.2.kind = GridTrackKind.Gutter := by
    intro q hq
    rcases List.mem_append.mp hq with hq2 | hq2
    · rcases List.mem_append.mp hq2 with hq3 | hq3
      · exact implicitPairs_kinds _ _ _ q hq3
      · revert hq3
        split
        · intro hq3
          exact explicitWalk_fst_kinds _ _ _ _ _ _ q hq3
        · intro hq3
          simp at hq3
    · exact implicitPairs_kinds _ _ _ q hq2
  have hkind : (collapseLast (collapseFirst (GridTrack.gutter gap ::
      (pairsList (implicitPairs counts.negative_implicit f1 gap) ++
        pairsList (if 0 < counts.explicit then
            explicitWalk track_template.length counts.explicit gap track_has_items
              track_template counts.negative_implicit
          else ([], [])).1 ++
        pairsList (implicitPairs counts.positive_implicit f2 gap))))).map (fun t => t.kind) =
      gutterTrackPattern (counts.negative_implicit + counts.explicit +
        counts.positive_implicit) := by
    rw [collapseLast_map_kind, collapseFirst_map_kind, ← pairsList_append, ← pairsList_append,
      map_kind_gutter_pairs _ (GridTrack.gutter gap) rfl hkindpairs]
    congr 1
    rw [List.length_append, List.length_append, implicitPairs_length, implicitPairs_length, hW]
  have hlenpat := congrArg List.length hkind
  rw [List.length_map, gutterTrackPattern_length] at hlenpat
  refine ⟨hlenpat, ?_⟩
  intro i hi
  have hp : i < (gutterTrackPattern (counts.negative_implicit + counts.explicit +
      counts.positive_implicit)).length := by
    rw [gutterTrackPattern_length]
    omega
  rw [get_kind_of_map_eq _ _ hkind i hi hp, gutterTrackPattern_get _ i hp]

end Taffy

namespace Taffy

/-- Counterexample for C1 as stated: the counts are consistent in the
claim's sense (exactly one AutoRepeat entry and explicit = 1 >= template
length), yet because the repeated group is empty its cycle() yields no
tracks, the walk emits nothing, and the produced sequence has length 1, not
2 * (0 + 1 + 0) + 1 = 3. -/
theorem claim_C1_counterexample :
    ([TrackSizingFunction.AutoRepeat .AutoFill []].countP
      TrackSizingFunction.is_auto_repetition = 1) ∧
    ([TrackSizingFunction.AutoRepeat .AutoFill []] : List TrackSizingFunction).length ≤ 1 ∧
    init_grid_tracks ⟨0, 1, 0⟩ [TrackSizingFunction.AutoRepeat .AutoFill []] []
      (.Points 0) (fun _ => false) =
      some [⟨GridTrackKind.Gutter, .Fixed (.Points 0), .Fixed (.Points 0), true⟩] ∧
    ([⟨GridTrackKind.Gutter, .Fixed (.Points 0), .Fixed (.Points 0), true⟩] :
      List GridTrack).length ≠ 2 * (0 + 1 + 0) + 1 :=
  ⟨by decide, by decide, rfl, by decide⟩

/-- Witness for C1 at a consistent input exercising the auto-repetition
path: one negative implicit track, one AutoFill-generated explicit track. -/
theorem claim_C1_witness :
    ((⟨1, 1, 0⟩ : TrackCounts).explicit < 65536) ∧
    ([TrackSizingFunction.AutoRepeat .AutoFill [fixedTrack 2]].countP
      TrackSizingFunction.is_auto_repetition = 1) ∧
    (∃ l, init_grid_tracks ⟨1, 1, 0⟩ [TrackSizingFunction.AutoRepeat .AutoFill [fixedTrack 2]]
        [] (.Points 0) (fun _ => false) = some l ∧
      l.length = 2 * (1 + 1 + 0) + 1 ∧
      ∀ (i : Nat) (hi : i < l.length),
        (l.get ⟨i, hi⟩).kind =
          if i % 2 = 0 then GridTrackKind.Gutter else GridTrackKind.Track) := by
  refine ⟨by decide, by decide, ?_⟩
  have h : init_grid_tracks ⟨1, 1, 0⟩ [TrackSizingFunction.AutoRepeat .AutoFill [fixedTrack 2]]
      [] (.Points 0) (fun _ => false) =
      some [⟨GridTrackKind.Gutter, .Fixed (.Points 0), .Fixed (.Points 0), true⟩,
        ⟨GridTrackKind.Track, .Auto, .Auto, false⟩,
        ⟨GridTrackKind.Gutter, .Fixed (.Points 0), .Fixed (.Points 0), false⟩,
        ⟨GridTrackKind.Track, .Fixed (.Points 2), .Fixed (.Points 2), false⟩,
        ⟨GridTrackKind.Gutter, .Fixed (.Points 0), .Fixed (.Points 0), true⟩] := rfl
  have hc := claim_C1 ⟨1, 1, 0⟩ [TrackSizingFunction.AutoRepeat .AutoFill [fixedTrack 2]]
    [] (.Points 0) (fun _ => false) _ (by decide)
    (Or.inr (Or.inr ⟨by decide, by
      intro k g hg
      simp only [List.mem_singleton] at hg
      injection hg with h1 h2
      subst h2
      simp, by decide⟩)) h
  exact ⟨_, h, hc.1, hc.2⟩

/-- C10 (amended): for every completing call whose counts are consistent
with the template (as in C1), the logged track_has_items invocation indices
are strictly increasing (hence each generated track is tested at most
once), all lie in [negative_implicit, negative_implicit + explicit), and no
invocation happens at all when the template has no AutoFit repetition (the
source guards the call with repetition_kind == AutoFit; Single entries and
the two implicit phases never invoke the predicate, they only advance the
index counter). -/
theorem claim_C10 (counts : TrackCounts) (track_template : List TrackSizingFunction)
    (auto_tracks : List NonRepeatedTrackSizingFunction) (gap : LengthPercentage)
    (track_has_items : Nat → Bool) (log : List Nat)
    (hE : counts.explicit < 65536)
    (hcons : counts.explicit = 0 ∨
      (track_template.countP TrackSizingFunction.is_auto_repetition = 0 ∧
        counts.explicit = track_template.length) ∨
      (track_template.countP TrackSizingFunction.is_auto_repetition = 1 ∧
        (∀ k g, TrackSizingFunction.AutoRepeat k g ∈ track_template → g ≠ []) ∧
        track_template.length ≤ counts.explicit))
    (h : track_has_items_calls counts track_template auto_tracks gap track_has_items =
      some log) :
    log.Pairwise (· < ·) ∧
    (∀ x ∈ log, counts.negative_implicit ≤ x ∧
      x < counts.negative_implicit + counts.explicit) ∧
    ((∀ k g, TrackSizingFunction.AutoRepeat k g ∈ track_template →
        k = GridTrackRepetition.AutoFill) → log = []) := by
  obtain ⟨l, hres⟩ := calls_eq counts track_template auto_tracks gap track_has_items log h
  obtain ⟨f1, f2, hspec⟩ := init_full_spec counts track_template auto_tracks gap
    track_has_items (l, log) hres
  rw [Prod.mk.injEq] at hspec
  obtain ⟨-, hlog⟩ := hspec
  by_cases hpos : 0 < counts.explicit
  · rw [if_pos hpos] at hlog
    subst hlog
    have hcons2 : (track_template.countP TrackSizingFunction.is_auto_repetition = 0 ∧
        counts.explicit = track_template.length) ∨
        (track_template.countP TrackSizingFunction.is_auto_repetition = 1 ∧
          (∀ k g, TrackSizingFunction.AutoRepeat k g ∈ track_template → g ≠ []) ∧
          track_template.length ≤ counts.explicit) := by
      rcases hcons with h0 | h2 | h3
      · omega
      · exact Or.inl h2
      · exact Or.inr h3
    have hW := walk_length_explicit track_template counts.explicit gap track_has_items
      counts.negative_implicit hE hcons2
    refine ⟨explicitWalk_log_pairwise _ _ _ _ _ _, ?_, ?_⟩
    · intro x hx
      have hb := explicitWalk_log_bound _ _ gap track_has_items track_template _ x hx
      omega
    · intro hfill
      exact explicitWalk_log_nil _ _ _ _ _ _ hfill
  · rw [if_neg hpos] at hlog
    subst hlog
    exact ⟨List.Pairwise.nil, by intro x hx; simp at hx, fun _ => rfl⟩

/-- Counterexample for C10 as stated: with counts.explicit = 1 and a
three-entry template headed by an AutoFit repetition, the wrapping u16
subtraction explicit - (template_len - 1) = 1 - 2 produces 65535 generated
tracks, and the predicate is invoked at index 1, outside the claimed range
[negative_implicit, negative_implicit + explicit) = [0, 1). -/
theorem claim_C10_counterexample :
    track_has_items_calls ⟨0, 1, 0⟩
      [TrackSizingFunction.AutoRepeat .AutoFit [fixedTrack 1], .Single (fixedTrack 1),
        .Single (fixedTrack 1)] [] (.Points 0) (fun _ => false) =
      some ((List.range 65535).map (fun j => 0 + j) ++ []) ∧
    1 ∈ (List.range 65535).map (fun j => 0 + j) ++ [] ∧
    ¬(1 < 0 + 1) := by
  refine ⟨rfl, ?_, by omega⟩
  rw [List.append_nil]
  refine List.mem_map.mpr ⟨1, List.mem_range.mpr (by omega), by omega⟩

/-- Witness for C10 at a consistent input with an AutoFit repetition: one
Single entry then two AutoFit-generated tracks, logged at the strictly
increasing in-range indices 2 and 3. -/
theorem claim_C10_witness :
    ((⟨1, 3, 0⟩ : TrackCounts).explicit < 65536) ∧
    ([TrackSizingFunction.Single (fixedTrack 1),
        TrackSizingFunction.AutoRepeat .AutoFit [fixedTrack 2]].countP
      TrackSizingFunction.is_auto_repetition = 1) ∧
    track_has_items_calls ⟨1, 3, 0⟩
      [.Single (fixedTrack 1), TrackSizingFunction.AutoRepeat .AutoFit [fixedTrack 2]]
      [] (.Points 0) (fun _ => false) = some [2, 3] ∧
    List.Pairwise (· < ·) [2, 3] ∧
    (∀ x ∈ [2, 3], 1 ≤ x ∧ x < 1 + 3) := by
  have h : track_has_items_calls ⟨1, 3, 0⟩
      [.Single (fixedTrack 1), TrackSizingFunction.AutoRepeat .AutoFit [fixedTrack 2]]
      [] (.Points 0) (fun _ => false) = some [2, 3] := rfl
  have hc := claim_C10 ⟨1, 3, 0⟩
    [.Single (fixedTrack 1), TrackSizingFunction.AutoRepeat .AutoFit [fixedTrack 2]]
    [] (.Points 0) (fun _ => false) [2, 3] (by decide)
    (Or.inr (Or.inr ⟨by decide, by
      intro k g hg
      simp only [List.mem_cons, List.mem_singleton, TrackSizingFunction.AutoRepeat.injEq] at hg
      rcases hg with hg | ⟨-, rfl⟩ | hg
      · exact absurd hg (by simp)
      · simp
      · simp at hg, by decide⟩)) h
  exact ⟨by decide, by decide, h, hc.1, hc.2.1⟩

end Taffy

namespace Taffy

/-! Closed forms for the repetition computation. -/

/-- When the first repetition already overflows the inner size the
repetition count is floored at 1. -/
theorem num_repetitions_first (style : Style) (axis : AbsoluteAxis) (nrc rtc : Nat)
    (rd : List NonRepeatedTrackSizingFunction) (I NR PR gapq F : ℚ)
    (hI : inner_container_size style axis = some I)
    (hNR : non_repeating_track_used_space (style.grid_template_tracks axis) (some I) = some NR)
    (hPR : per_repetition_track_used_space rd (some I) = some PR)
    (hgap : (style.gap.get_abs axis).resolve_or_zero (some I) = gapq)
    (hF : F = NR + PR + ((((nrc + rtc) % 65536 - 1 : Nat) : ℚ)) * gapq)
    (hfirst : I < F) :
    num_repetitions style axis nrc rtc rd = some 1 := by
  simp only [num_repetitions, hI, hNR, hPR, hgap]
  rw [if_pos (by rw [hF] at hfirst; exact hfirst)]

/-- When the first repetition fits, the repetition count is the quotient of
the remaining space by the per-repetition cost, cast to u16 with the
governing rounding mode, plus one (in wrapping u16 arithmetic). -/
theorem num_repetitions_else (style : Style) (axis : AbsoluteAxis) (nrc rtc : Nat)
    (rd : List NonRepeatedTrackSizingFunction) (I NR PR gapq F C : ℚ)
    (hI : inner_container_size style axis = some I)
    (hNR : non_repeating_track_used_space (style.grid_template_tracks axis) (some I) = some NR)
    (hPR : per_repetition_track_used_space rd (some I) = some PR)
    (hgap : (style.gap.get_abs axis).resolve_or_zero (some I) = gapq)
    (hF : F = NR + PR + ((((nrc + rtc) % 65536 - 1 : Nat) : ℚ)) * gapq)
    (hC : C = PR + (rd.length : ℚ) * gapq)
    (hfirst : ¬I < F) :
    num_repetitions style axis nrc rtc rd =
      some (u16ofNat ((if size_is_maximum style axis then divCastFloor (I - F) C
        else divCastCeil (I - F) C) + 1)) := by
  simp only [num_repetitions, hI, hNR, hPR, hgap]
  rw [if_neg (by rw [hF] at hfirst; exact hfirst), hF, hC]

/-- The final count of compute_explicit_grid_size_in_axis for a valid
template with exactly one AutoRepeat entry and a non-empty repeated group,
in terms of the resolved repetition count. -/
theorem compute_eq_reps (style : Style) (axis : AbsoluteAxis)
    (rd : List NonRepeatedTrackSizingFunction) (n : Nat)
    (h1 : (style.grid_template_tracks axis).countP TrackSizingFunction.is_auto_repetition = 1)
    (h2 : all_track_defs_have_fixed_component (style.grid_template_tracks axis) = true)
    (hrd : repetition_definition (style.grid_template_tracks axis) = some rd)
    (hrdne : rd ≠ []) (hrdlen : rd.length < 65536)
    (hlen : (style.grid_template_tracks axis).length < 65536)
    (hn : num_repetitions style axis ((style.grid_template_tracks axis).length - 1) rd.length
      rd = some n) :
    compute_explicit_grid_size_in_axis style axis =
      some (u16ofNat (((style.grid_template_tracks axis).length - 1) + rd.length * n)) := by
  have hne : style.grid_template_tracks axis ≠ [] := by
    intro he
    rw [he] at h1
    simp at h1
  have hlen1 : 1 ≤ (style.grid_template_tracks axis).length :=
    le_trans (by rw [h1]) (List.countP_le_length _)
  have hcnt : u16ofNat ((style.grid_template_tracks axis).countP
      TrackSizingFunction.is_auto_repetition) = 1 := by rw [h1]; rfl
  have hnrc : u16sub (u16ofNat (style.grid_template_tracks axis).length)
      (u16ofNat ((style.grid_template_tracks axis).countP
        TrackSizingFunction.is_auto_repetition)) =
      (style.grid_template_tracks axis).length - 1 := by
    rw [hcnt, u16ofNat_of_lt hlen]
    exact u16sub_eq hlen (by omega) hlen1
  have hrtc : u16ofNat rd.length = rd.length := u16ofNat_of_lt hrdlen
  have hrtc0 : rd.length ≠ 0 := by
    intro he
    exact hrdne (List.length_eq_zero.mp he)
  simp only [compute_explicit_grid_size_in_axis]
  rw [if_neg (by simp [List.isEmpty_iff, hne]),
    if_neg (by rw [not_not]; exact Or.inr ⟨hcnt, h2⟩), if_neg (by rw [hcnt]; simp), hrd, hnrc]
  split
  next heq => exact absurd heq (by simp)
  next rep heq =>
    obtain rfl : rep = rd := (Option.some.inj heq).symm
    rw [hrtc, if_neg hrtc0, hn]
    rfl

end Taffy

namespace Taffy

/-- C4 (amended): for a valid template with exactly one AutoRepeat entry
(non-empty group), a definite inner size I, resolved non-repeating space NR,
per-repetition space PR and gap, when the first repetition plus
non-repeating tracks F does not exceed I and the per-additional-repetition
cost C is positive, the repetition count is floor((I - F) / C) + 1 when the
outer size is maximum-governed and ceil((I - F) / C) + 1 when it is
minimum-governed, and the explicit count is the non-repeating count plus
group length times that repetition count — provided the quotient stays at
most 65534 so that the u16 cast and the subsequent + 1 do not saturate or
wrap (the condition forced by the counterexample below). -/
theorem claim_C4 (style : Style) (axis : AbsoluteAxis)
    (rd : List NonRepeatedTrackSizingFunction) (I NR PR gapq F C : ℚ)
    (h1 : (style.grid_template_tracks axis).countP TrackSizingFunction.is_auto_repetition = 1)
    (h2 : all_track_defs_have_fixed_component (style.grid_template_tracks axis) = true)
    (hrd : repetition_definition (style.grid_template_tracks axis) = some rd)
    (hrdne : rd ≠ []) (hrdlen : rd.length < 65536)
    (hlen : (style.grid_template_tracks axis).length < 65536)
    (hI : inner_container_size style axis = some I)
    (hNR : non_repeating_track_used_space (style.grid_template_tracks axis) (some I) = some NR)
    (hPR : per_repetition_track_used_space rd (some I) = some PR)
    (hgap : (style.gap.get_abs axis).resolve_or_zero (some I) = gapq)
    (hF : F = NR + PR + (((((style.grid_template_tracks axis).length - 1 + rd.length) % 65536
      - 1 : Nat) : ℚ)) * gapq)
    (hC : C = PR + (rd.length : ℚ) * gapq)
    (hfirst : ¬I < F)
    (hCpos : 0 < C)
    (hbound : (if size_is_maximum style axis then Int.floor ((I - F) / C)
      else Int.ceil ((I - F) / C)) ≤ 65534) :
    num_repetitions style axis ((style.grid_template_tracks axis).length - 1) rd.length rd =
      some ((if size_is_maximum style axis then (Int.floor ((I - F) / C)).toNat
        else (Int.ceil ((I - F) / C)).toNat) + 1) ∧
    compute_explicit_grid_size_in_axis style axis =
      some (u16ofNat (((style.grid_template_tracks axis).length - 1) + rd.length *
        ((if size_is_maximum style axis then (Int.floor ((I - F) / C)).toNat
          else (Int.ceil ((I - F) / C)).toNat) + 1))) := by
  have hIF : (0 : ℚ) ≤ I - F := sub_nonneg.mpr (not_lt.mp hfirst)
  have hq0 : (0 : ℚ) ≤ (I - F) / C := div_nonneg hIF (le_of_lt hCpos)
  have hrep := num_repetitions_else style axis
    ((style.grid_template_tracks axis).length - 1) rd.length rd I NR PR gapq F C
    hI hNR hPR hgap hF hC hfirst
  have hkey : u16ofNat ((if size_is_maximum style axis then divCastFloor (I - F) C
      else divCastCeil (I - F) C) + 1) =
      (if size_is_maximum style axis then (Int.floor ((I - F) / C)).toNat
        else (Int.ceil ((I - F) / C)).toNat) + 1 := by
    by_cases hmax : size_is_maximum style axis = true
    · rw [if_pos hmax] at hbound
      rw [if_pos hmax, if_pos hmax]
      have hf0 : 0 ≤ Int.floor ((I - F) / C) := Int.floor_nonneg.mpr hq0
      have hcast : divCastFloor (I - F) C = (Int.floor ((I - F) / C)).toNat := by
        unfold divCastFloor intToU16sat
        rw [if_neg (ne_of_gt hCpos), if_neg (by omega)]
        exact Nat.min_eq_right (by omega)
      rw [hcast]
      exact u16ofNat_of_lt (by omega)
    · rw [if_neg hmax] at hbound
      rw [if_neg hmax, if_neg hmax]
      have hf0 : 0 ≤ Int.ceil ((I - F) / C) := Int.ceil_nonneg hq0
      have hcast : divCastCeil (I - F) C = (Int.ceil ((I - F) / C)).toNat := by
        unfold divCastCeil intToU16sat
        rw [if_neg (ne_of_gt hCpos), if_neg (by omega)]
        exact Nat.min_eq_right (by omega)
      rw [hcast]
      exact u16ofNat_of_lt (by omega)
  constructor
  · rw [hrep, hkey]
  · refine compute_eq_reps style axis rd _ h1 h2 hrd hrdne hrdlen hlen ?_
    rw [hrep, hkey]

end Taffy

namespace Taffy

/-- Counterexample for C4 as stated: a 70000-wide maximum-governed container
over repeat(AutoFill, [1]) satisfies all the claim's conditions (first
repetition 1 <= 70000, cost 1 > 0), and the claimed repetition count is
floor(69999 / 1) + 1 = 70000, but the u16 cast saturates the quotient at
65535 and the subsequent + 1 wraps, so the code resolves 0 repetitions. -/
theorem claim_C4_counterexample :
    size_is_maximum scOverflowSingle .Horizontal = true ∧
    inner_container_size scOverflowSingle .Horizontal = some 70000 ∧
    ¬((70000 : ℚ) < 1) ∧
    (0 : ℚ) < 1 ∧
    num_repetitions scOverflowSingle .Horizontal 0 1 [fixedTrack 1] = some 0 ∧
    (Int.floor (((70000 : ℚ) - 1) / 1)).toNat + 1 = 70000 ∧
    (0 : Nat) ≠ 70000 := by
  refine ⟨rfl, ?_, by norm_num, by norm_num, ?_, ?_, by omega⟩
  · norm_num [inner_container_size, outer_container_size, maybeMinOpt, maybeMin,
      scOverflowSingle, Size.get_abs, Rect.resolve_or_zero, Rect.grid_axis_sum,
      LengthPercentage.resolve_or_zero, LengthPercentage.maybe_resolve]
  · norm_num [num_repetitions, scOverflowSingle, Style.grid_template_tracks,
      inner_container_size, outer_container_size, maybeMinOpt, maybeMin, Size.get_abs,
      Rect.resolve_or_zero, Rect.grid_axis_sum, LengthPercentage.resolve_or_zero,
      LengthPercentage.maybe_resolve, non_repeating_track_used_space,
      per_repetition_track_used_space, sumTracksOpt, track_definite_value,
      SizingFunctionComponent.definite_value, fixedTrack, size_is_maximum, divCastFloor,
      divCastCeil, intToU16sat, u16ofNat, Int.toNat_ofNat]
  · norm_num [Int.toNat_ofNat]
    omega

/-- Witness for C4 at the 120 x 80 scenario of the source's test suite:
width resolves to 3 explicit tracks and height to 4. -/
theorem claim_C4_witness :
    ((scExactFit.grid_template_tracks .Horizontal).countP
      TrackSizingFunction.is_auto_repetition = 1) ∧
    ¬((120 : ℚ) < 40) ∧ (0 : ℚ) < 40 ∧
    compute_explicit_grid_size_in_axis scExactFit .Horizontal = some 3 ∧
    compute_explicit_grid_size_in_axis scExactFit .Vertical = some 4 := by
  have hH := (claim_C4 scExactFit .Horizontal [fixedTrack 40] 120 0 40 0 40 40
    (by decide) (by decide) rfl (by decide) (by decide) (by decide)
    (by norm_num [inner_container_size, outer_container_size, maybeMinOpt, maybeMin,
      scExactFit, Size.get_abs, Rect.resolve_or_zero, Rect.grid_axis_sum,
      LengthPercentage.resolve_or_zero, LengthPercentage.maybe_resolve])
    (by norm_num [non_repeating_track_used_space, sumTracksOpt, scExactFit,
      Style.grid_template_tracks])
    (by norm_num [per_repetition_track_used_space, sumTracksOpt, track_definite_value,
      SizingFunctionComponent.definite_value, fixedTrack, maybeMin,
      LengthPercentage.maybe_resolve])
    (by norm_num [scExactFit, Size.get_abs, LengthPercentage.resolve_or_zero,
      LengthPercentage.maybe_resolve])
    (by norm_num [scExactFit, Style.grid_template_tracks])
    (by norm_num)
    (by norm_num)
    (by norm_num)
    (by norm_num [size_is_maximum, scExactFit, Size.get_abs])).2
  have hV := (claim_C4 scExactFit .Vertical [fixedTrack 20] 80 0 20 0 20 20
    (by decide) (by decide) rfl (by decide) (by decide) (by decide)
    (by norm_num [inner_container_size, outer_container_size, maybeMinOpt, maybeMin,
      scExactFit, Size.get_abs, Rect.resolve_or_zero, Rect.grid_axis_sum,
      LengthPercentage.resolve_or_zero, LengthPercentage.maybe_resolve])
    (by norm_num [non_repeating_track_used_space, sumTracksOpt, scExactFit,
      Style.grid_template_tracks])
    (by norm_num [per_repetition_track_used_space, sumTracksOpt, track_definite_value,
      SizingFunctionComponent.definite_value, fixedTrack, maybeMin,
      LengthPercentage.maybe_resolve])
    (by norm_num [scExactFit, Size.get_abs, LengthPercentage.resolve_or_zero,
      LengthPercentage.maybe_resolve])
    (by norm_num [scExactFit, Style.grid_template_tracks])
    (by norm_num)
    (by norm_num)
    (by norm_num)
    (by norm_num [size_is_maximum, scExactFit, Size.get_abs])).2
  refine ⟨by decide, by norm_num, by norm_num, ?_, ?_⟩
  · rw [hH]
    norm_num [size_is_maximum, scExactFit, Size.get_abs, Style.grid_template_tracks,
      u16ofNat, Int.toNat_ofNat]
    omega
  · rw [hV]
    norm_num [size_is_maximum, scExactFit, Size.get_abs, Style.grid_template_tracks,
      u16ofNat, Int.toNat_ofNat]
    omega

end Taffy

namespace Taffy

/-! Evaluation lemmas for the fixed AutoFill style family. -/

theorem sumTracksOpt_single_points (parent : Option ℚ) :
    ∀ l : List ℚ, sumTracksOpt (fun track_def =>
      match track_def with
      | TrackSizingFunction.Single sizing_function =>
        track_definite_value sizing_function parent
      | TrackSizingFunction.AutoRepeat _ _ => some 0)
      (l.map (fun q => TrackSizingFunction.Single (fixedTrack q))) = some l.sum := by
  intro l
  induction l with
  | nil => rfl
  | cons q l ih =>
    simp only [List.map_cons, sumTracksOpt, track_definite_value_fixedTrack, ih, List.sum_cons]

theorem non_rep_fixedTemplate (pre grp post : List ℚ) (parent : Option ℚ) :
    non_repeating_track_used_space (fixedTemplate pre grp post) parent =
      some (pre.sum + (0 + post.sum)) := by
  unfold non_repeating_track_used_space fixedTemplate
  refine sumTracksOpt_append _ _ _ (sumTracksOpt_single_points parent pre) ?_
  simp only [sumTracksOpt, sumTracksOpt_single_points parent post]

theorem per_rep_fixedTracks (parent : Option ℚ) :
    ∀ l : List ℚ, per_repetition_track_used_space (l.map fixedTrack) parent = some l.sum := by
  intro l
  induction l with
  | nil => rfl
  | cons q l ih =>
    simp only [List.map_cons, per_repetition_track_used_space, sumTracksOpt,
      track_definite_value_fixedTrack, List.sum_cons]
    simp only [per_repetition_track_used_space] at ih
    rw [ih]

theorem countP_map_single (l : List ℚ) :
    (l.map (fun q => TrackSizingFunction.Single (fixedTrack q))).countP
      TrackSizingFunction.is_auto_repetition = 0 := by
  rw [List.countP_eq_zero]
  intro a ha
  obtain ⟨q, _, rfl⟩ := List.mem_map.mp ha
  simp [TrackSizingFunction.is_auto_repetition]

theorem countP_fixedTemplate (pre grp post : List ℚ) :
    (fixedTemplate pre grp post).countP TrackSizingFunction.is_auto_repetition = 1 := by
  unfold fixedTemplate
  rw [List.countP_append, countP_map_single, List.countP_cons, countP_map_single]
  simp [TrackSizingFunction.is_auto_repetition]

theorem allfixed_fixedTemplate (pre grp post : List ℚ) :
    all_track_defs_have_fixed_component (fixedTemplate pre grp post) = true := by
  simp only [all_track_defs_have_fixed_component, fixedTemplate, List.all_eq_true]
  intro td htd
  rcases List.mem_append.mp htd with h | h
  · obtain ⟨q, _, rfl⟩ := List.mem_map.mp h
    simp [NonRepeatedTrackSizingFunction.has_fixed_component, fixedTrack,
      SizingFunctionComponent.is_fixed]
  · rcases List.mem_cons.mp h with rfl | h2
    · simp only [List.all_eq_true]
      intro sf hsf
      obtain ⟨q, _, rfl⟩ := List.mem_map.mp hsf
      simp [NonRepeatedTrackSizingFunction.has_fixed_component, fixedTrack,
        SizingFunctionComponent.is_fixed]
    · obtain ⟨q, _, rfl⟩ := List.mem_map.mp h2
      simp [NonRepeatedTrackSizingFunction.has_fixed_component, fixedTrack,
        SizingFunctionComponent.is_fixed]

theorem repdef_fixedTemplate (pre grp post : List ℚ) :
    repetition_definition (fixedTemplate pre grp post) = some (grp.map fixedTrack) := by
  unfold repetition_definition fixedTemplate
  induction pre with
  | nil => rfl
  | cons q pre ih => simpa only [List.map_cons, List.cons_append, List.findSome?_cons] using ih

theorem length_fixedTemplate (pre grp post : List ℚ) :
    (fixedTemplate pre grp post).length = pre.length + post.length + 1 := by
  simp only [fixedTemplate, List.length_append, List.length_map, List.length_cons]
  omega

theorem template_fixedAutoFillStyle (pre grp post : List ℚ) (pad bor : Rect ℚ) (g s : ℚ)
    (axis : AbsoluteAxis) :
    (fixedAutoFillStyle pre grp post pad bor g s).grid_template_tracks axis =
      fixedTemplate pre grp post := by
  cases axis <;> rfl

theorem inner_fixedAutoFillStyle (pre grp post : List ℚ) (pad bor : Rect ℚ) (g s : ℚ)
    (axis : AbsoluteAxis) :
    inner_container_size (fixedAutoFillStyle pre grp post pad bor g s) axis =
      some (s - pad.grid_axis_sum axis - bor.grid_axis_sum axis) := by
  cases axis <;>
    simp [inner_container_size, outer_container_size, maybeMinOpt, maybeMin,
      fixedAutoFillStyle, Size.get_abs, Rect.resolve_or_zero, Rect.grid_axis_sum, pointsRect,
      LengthPercentage.resolve_or_zero, LengthPercentage.maybe_resolve]

theorem gap_fixedAutoFillStyle (pre grp post : List ℚ) (pad bor : Rect ℚ) (g s : ℚ)
    (axis : AbsoluteAxis) (parent : Option ℚ) :
    (((fixedAutoFillStyle pre grp post pad bor g s).gap.get_abs axis)).resolve_or_zero
      parent = g := by
  cases axis <;>
    simp [fixedAutoFillStyle, Size.get_abs, LengthPercentage.resolve_or_zero,
      LengthPercentage.maybe_resolve]

theorem size_is_maximum_fixedAutoFillStyle (pre grp post : List ℚ) (pad bor : Rect ℚ)
    (g s : ℚ) (axis : AbsoluteAxis) :
    size_is_maximum (fixedAutoFillStyle pre grp post pad bor g s) axis = true := by
  cases axis <;> rfl

end Taffy

namespace Taffy

/-- Closed form of the explicit count for the fixed AutoFill style family:
with inner size I = s - padding - border, the count is the number of
non-repeating tracks plus group length times the resolved repetitions. -/
theorem compute_fixedAutoFillStyle (pre grp post : List ℚ) (pad bor : Rect ℚ) (g s F C : ℚ)
    (axis : AbsoluteAxis)
    (hgrp : grp ≠ [])
    (htracks : pre.length + post.length + grp.length < 65535)
    (hF : F = (pre.sum + (0 + post.sum)) + grp.sum +
      (((pre.length + post.length + grp.length - 1 : Nat) : ℚ)) * g)
    (hC : C = grp.sum + (grp.length : ℚ) * g) :
    compute_explicit_grid_size_in_axis (fixedAutoFillStyle pre grp post pad bor g s) axis =
      some (u16ofNat ((pre.length + post.length) + grp.length *
        (if s - pad.grid_axis_sum axis - bor.grid_axis_sum axis < F then 1
         else u16ofNat
           (divCastFloor (s - pad.grid_axis_sum axis - bor.grid_axis_sum axis - F) C
             + 1)))) := by
  have hgl : 1 ≤ grp.length := List.length_pos.mpr hgrp
  have h1 : ((fixedAutoFillStyle pre grp post pad bor g s).grid_template_tracks axis).countP
      TrackSizingFunction.is_auto_repetition = 1 := by
    rw [template_fixedAutoFillStyle]
    exact countP_fixedTemplate pre grp post
  have h2 : all_track_defs_have_fixed_component
      ((fixedAutoFillStyle pre grp post pad bor g s).grid_template_tracks axis) = true := by
    rw [template_fixedAutoFillStyle]
    exact allfixed_fixedTemplate pre grp post
  have hrd : repetition_definition
      ((fixedAutoFillStyle pre grp post pad bor g s).grid_template_tracks axis) =
      some (grp.map fixedTrack) := by
    rw [template_fixedAutoFillStyle]
    exact repdef_fixedTemplate pre grp post
  have hrdne : grp.map fixedTrack ≠ [] := by simp [hgrp]
  have hrdlen : (grp.map fixedTrack).length < 65536 := by rw [List.length_map]; omega
  have hlen : ((fixedAutoFillStyle pre grp post pad bor g s).grid_template_tracks
      axis).length < 65536 := by
    rw [template_fixedAutoFillStyle, length_fixedTemplate]
    omega
  have hI : inner_container_size (fixedAutoFillStyle pre grp post pad bor g s) axis =
      some (s - pad.grid_axis_sum axis - bor.grid_axis_sum axis) :=
    inner_fixedAutoFillStyle pre grp post pad bor g s axis
  have hNR : non_repeating_track_used_space
      ((fixedAutoFillStyle pre grp post pad bor g s).grid_template_tracks axis)
      (some (s - pad.grid_axis_sum axis - bor.grid_axis_sum axis)) =
      some (pre.sum + (0 + post.sum)) := by
    rw [template_fixedAutoFillStyle]
    exact non_rep_fixedTemplate pre grp post _
  have hPR : per_repetition_track_used_space (grp.map fixedTrack)
      (some (s - pad.grid_axis_sum axis - bor.grid_axis_sum axis)) = some grp.sum :=
    per_rep_fixedTracks _ grp
  have hgap : (((fixedAutoFillStyle pre grp post pad bor g s).gap.get_abs axis)).resolve_or_zero
      (some (s - pad.grid_axis_sum axis - bor.grid_axis_sum axis)) = g :=
    gap_fixedAutoFillStyle pre grp post pad bor g s axis _
  have hnat : ((((fixedAutoFillStyle pre grp post pad bor g s).grid_template_tracks
      axis).length - 1 + (grp.map fixedTrack).length) % 65536 - 1 : Nat) =
      (pre.length + post.length + grp.length - 1 : Nat) := by
    rw [template_fixedAutoFillStyle, length_fixedTemplate, List.length_map]
    omega
  have hFmatch : F = (pre.sum + (0 + post.sum)) + grp.sum +
      ((((((fixedAutoFillStyle pre grp post pad bor g s).grid_template_tracks axis).length
        - 1 + (grp.map fixedTrack).length) % 65536 - 1 : Nat) : ℚ)) * g := by
    rw [hF, hnat]
  have hCmatch : C = grp.sum + ((grp.map fixedTrack).length : ℚ) * g := by
    rw [hC, List.length_map]
  have hconv : ∀ n : Nat,
      u16ofNat ((((fixedAutoFillStyle pre grp post pad bor g s).grid_template_tracks
        axis).length - 1) + (grp.map fixedTrack).length * n) =
      u16ofNat ((pre.length + post.length) + grp.length * n) := by
    intro n
    rw [template_fixedAutoFillStyle, length_fixedTemplate, List.length_map]
    congr 1
  by_cases hfirst : s - pad.grid_axis_sum axis - bor.grid_axis_sum axis < F
  · have hrep := num_repetitions_first (fixedAutoFillStyle pre grp post pad bor g s) axis
      (((fixedAutoFillStyle pre grp post pad bor g s).grid_template_tracks axis).length - 1)
      (grp.map fixedTrack).length (grp.map fixedTrack) _ _ _ g F hI hNR hPR hgap hFmatch
      hfirst
    rw [compute_eq_reps _ axis (grp.map fixedTrack) 1 h1 h2 hrd hrdne hrdlen hlen hrep,
      if_pos hfirst]
    exact congrArg some (hconv 1)
  · have hrep := num_repetitions_else (fixedAutoFillStyle pre grp post pad bor g s) axis
      (((fixedAutoFillStyle pre grp post pad bor g s).grid_template_tracks axis).length - 1)
      (grp.map fixedTrack).length (grp.map fixedTrack) _ _ _ g F C hI hNR hPR hgap hFmatch
      hCmatch hfirst
    rw [size_is_maximum_fixedAutoFillStyle, if_pos rfl] at hrep
    rw [compute_eq_reps _ axis (grp.map fixedTrack) _ h1 h2 hrd hrdne hrdlen hlen hrep,
      if_neg hfirst]
    exact congrArg some (hconv _)

end Taffy

namespace Taffy

/-- C8 (amended): for a fixed valid AutoFill template with points-valued
repeated tracks, padding, border and gap, and a definite preferred size,
the explicit track count is non-decreasing in the container size, provided
the per-additional-repetition cost C is positive and the repetition
arithmetic at the larger size stays inside the u16 range (quotient at most
65534 and resulting track count at most 65535) — the conditions forced by
the overflow counterexample below. -/
theorem claim_C8 (axis : AbsoluteAxis) (pre grp post : List ℚ) (pad bor : Rect ℚ)
    (g s1 s2 : ℚ) (F C : ℚ) (q2 : ℤ)
    (hgrp : grp ≠ [])
    (htracks : pre.length + post.length + grp.length < 65535)
    (hle : s1 ≤ s2)
    (hF : F = (pre.sum + (0 + post.sum)) + grp.sum +
      (((pre.length + post.length + grp.length - 1 : Nat) : ℚ)) * g)
    (hC : C = grp.sum + (grp.length : ℚ) * g)
    (hCpos : 0 < C)
    (hq2 : q2 = Int.floor ((s2 - pad.grid_axis_sum axis - bor.grid_axis_sum axis - F) / C))
    (hq2le : q2 ≤ 65534)
    (hcnt : pre.length + post.length + grp.length * (q2.toNat + 1) ≤ 65535) :
    ∀ n1 n2 : Nat,
      compute_explicit_grid_size_in_axis (fixedAutoFillStyle pre grp post pad bor g s1)
        axis = some n1 →
      compute_explicit_grid_size_in_axis (fixedAutoFillStyle pre grp post pad bor g s2)
        axis = some n2 →
      n1 ≤ n2 := by
  intro n1 n2 hn1 hn2
  rw [compute_fixedAutoFillStyle pre grp post pad bor g s1 F C axis hgrp htracks hF hC] at hn1
  rw [compute_fixedAutoFillStyle pre grp post pad bor g s2 F C axis hgrp htracks hF hC] at hn2
  obtain rfl := (Option.some.inj hn1).symm
  obtain rfl := (Option.some.inj hn2).symm
  have hgl : 1 ≤ grp.length := List.length_pos.mpr hgrp
  have hI12 : s1 - pad.grid_axis_sum axis - bor.grid_axis_sum axis ≤
      s2 - pad.grid_axis_sum axis - bor.grid_axis_sum axis := by linarith
  by_cases h2f : s2 - pad.grid_axis_sum axis - bor.grid_axis_sum axis < F
  · have h1f : s1 - pad.grid_axis_sum axis - bor.grid_axis_sum axis < F :=
      lt_of_le_of_lt hI12 h2f
    rw [if_pos h1f, if_pos h2f]
  · have hII : (0 : ℚ) ≤ s2 - pad.grid_axis_sum axis - bor.grid_axis_sum axis - F :=
      sub_nonneg.mpr (not_lt.mp h2f)
    have hq20 : 0 ≤ q2 := by
      rw [hq2]
      exact Int.floor_nonneg.mpr (div_nonneg hII (le_of_lt hCpos))
    have hd2 : divCastFloor (s2 - pad.grid_axis_sum axis - bor.grid_axis_sum axis - F) C =
        q2.toNat := by
      unfold divCastFloor intToU16sat
      rw [if_neg (ne_of_gt hCpos), ← hq2, if_neg (by omega)]
      exact Nat.min_eq_right (by omega)
    have hu2 : u16ofNat (q2.toNat + 1) = q2.toNat + 1 := u16ofNat_of_lt (by omega)
    have hb2 : u16ofNat ((pre.length + post.length) + grp.length * (q2.toNat + 1)) =
        (pre.length + post.length) + grp.length * (q2.toNat + 1) :=
      u16ofNat_of_lt (by omega)
    rw [if_neg h2f, hd2, hu2, hb2]
    by_cases h1f : s1 - pad.grid_axis_sum axis - bor.grid_axis_sum axis < F
    · rw [if_pos h1f]
      have hmul : grp.length * 1 ≤ grp.length * (q2.toNat + 1) :=
        Nat.mul_le_mul (le_refl _) (by omega)
      have hb1 : u16ofNat ((pre.length + post.length) + grp.length * 1) =
          (pre.length + post.length) + grp.length * 1 :=
        u16ofNat_of_lt (by omega)
      rw [hb1]
      omega
    · have hI1F : (0 : ℚ) ≤ s1 - pad.grid_axis_sum axis - bor.grid_axis_sum axis - F :=
        sub_nonneg.mpr (not_lt.mp h1f)
      have hq10 : 0 ≤ Int.floor ((s1 - pad.grid_axis_sum axis - bor.grid_axis_sum axis - F)
          / C) := Int.floor_nonneg.mpr (div_nonneg hI1F (le_of_lt hCpos))
      have hqle : Int.floor ((s1 - pad.grid_axis_sum axis - bor.grid_axis_sum axis - F) / C)
          ≤ q2 := by
        rw [hq2]
        exact Int.floor_le_floor ((div_le_div_iff_of_pos_right hCpos).mpr (by linarith))
      have hd1 : divCastFloor (s1 - pad.grid_axis_sum axis - bor.grid_axis_sum axis - F) C =
          (Int.floor ((s1 - pad.grid_axis_sum axis - bor.grid_axis_sum axis - F) / C)).toNat
          := by
        unfold divCastFloor intToU16sat
        rw [if_neg (ne_of_gt hCpos), if_neg (by omega)]
        exact Nat.min_eq_right (by omega)
      have hu1 : u16ofNat
          ((Int.floor ((s1 - pad.grid_axis_sum axis - bor.grid_axis_sum axis - F) / C)).toNat
            + 1) =
          (Int.floor ((s1 - pad.grid_axis_sum axis - bor.grid_axis_sum axis - F) / C)).toNat
            + 1 :=
        u16ofNat_of_lt (by omega)
      have hmul : grp.length *
          ((Int.floor ((s1 - pad.grid_axis_sum axis - bor.grid_axis_sum axis - F) / C)).toNat
            + 1) ≤ grp.length * (q2.toNat + 1) :=
        Nat.mul_le_mul (le_refl _) (by omega)
      have hb1 : u16ofNat ((pre.length + post.length) + grp.length *
          ((Int.floor ((s1 - pad.grid_axis_sum axis - bor.grid_axis_sum axis - F) / C)).toNat
            + 1)) =
          (pre.length + post.length) + grp.length *
          ((Int.floor ((s1 - pad.grid_axis_sum axis - bor.grid_axis_sum axis - F) / C)).toNat
            + 1) :=
        u16ofNat_of_lt (by omega)
      rw [if_neg h1f, hd1, hu1, hb1]
      omega

end Taffy

namespace Taffy

/-- Counterexample for C8 as stated: over repeat(AutoFill, [1]) with no gap,
padding or border, the explicit count at preferred width 100 is 100, but at
width 70000 the repetition quotient saturates the u16 cast at 65535, the
+ 1 wraps to 0, and the count drops to 0 — monotonicity fails. -/
theorem claim_C8_counterexample :
    compute_explicit_grid_size_in_axis (scFillWidth 100) .Horizontal = some 100 ∧
    compute_explicit_grid_size_in_axis (scFillWidth 70000) .Horizontal = some 0 ∧
    (100 : ℚ) ≤ 70000 ∧
    ¬(100 ≤ (0 : Nat)) := by
  refine ⟨?_, ?_, by norm_num, by omega⟩ <;>
    · norm_num [compute_explicit_grid_size_in_axis, scFillWidth, Style.grid_template_tracks,
        TrackSizingFunction.is_auto_repetition, all_track_defs_have_fixed_component,
        NonRepeatedTrackSizingFunction.has_fixed_component, SizingFunctionComponent.is_fixed,
        fixedTrack, repetition_definition, num_repetitions, inner_container_size,
        outer_container_size, maybeMinOpt, maybeMin, Size.get_abs, Rect.resolve_or_zero,
        Rect.grid_axis_sum, LengthPercentage.resolve_or_zero, LengthPercentage.maybe_resolve,
        non_repeating_track_used_space, per_repetition_track_used_space, sumTracksOpt,
        track_definite_value, SizingFunctionComponent.definite_value,
        size_is_maximum, divCastFloor, divCastCeil, intToU16sat, u16ofNat, u16sub,
        List.countP_cons, List.findSome?, Int.toNat_ofNat]
      try omega

/-- Witness for C8 at a concrete in-range pair of sizes: a 120-wide and a
160-wide container over repeat(AutoFill, [40]) resolve to 3 and 4 explicit
tracks, and 3 <= 4. -/
theorem claim_C8_witness :
    (([40] : List ℚ) ≠ []) ∧ (0 : ℚ) < 40 ∧ (120 : ℚ) ≤ 160 ∧
    compute_explicit_grid_size_in_axis
      (fixedAutoFillStyle [] [40] [] ⟨0, 0, 0, 0⟩ ⟨0, 0, 0, 0⟩ 0 120) .Horizontal =
      some 3 ∧
    compute_explicit_grid_size_in_axis
      (fixedAutoFillStyle [] [40] [] ⟨0, 0, 0, 0⟩ ⟨0, 0, 0, 0⟩ 0 160) .Horizontal =
      some 4 ∧
    (3 : Nat) ≤ 4 := by
  have h1 : compute_explicit_grid_size_in_axis
      (fixedAutoFillStyle [] [40] [] ⟨0, 0, 0, 0⟩ ⟨0, 0, 0, 0⟩ 0 120) .Horizontal =
      some 3 := by
    rw [compute_fixedAutoFillStyle [] [40] [] ⟨0, 0, 0, 0⟩ ⟨0, 0, 0, 0⟩ 0 120 40 40
      .Horizontal (by simp) (by norm_num) (by norm_num) (by norm_num)]
    norm_num [Rect.grid_axis_sum, divCastFloor, intToU16sat, u16ofNat, Int.toNat_ofNat]
    omega
  have h2 : compute_explicit_grid_size_in_axis
      (fixedAutoFillStyle [] [40] [] ⟨0, 0, 0, 0⟩ ⟨0, 0, 0, 0⟩ 0 160) .Horizontal =
      some 4 := by
    rw [compute_fixedAutoFillStyle [] [40] [] ⟨0, 0, 0, 0⟩ ⟨0, 0, 0, 0⟩ 0 160 40 40
      .Horizontal (by simp) (by norm_num) (by norm_num) (by norm_num)]
    norm_num [Rect.grid_axis_sum, divCastFloor, intToU16sat, u16ofNat, Int.toNat_ofNat]
    omega
  refine ⟨by simp, by norm_num, by norm_num, h1, h2, ?_⟩
  exact claim_C8 .Horizontal [] [40] [] ⟨0, 0, 0, 0⟩ ⟨0, 0, 0, 0⟩ 0 120 160 40 40 3
    (by simp) (by norm_num) (by norm_num) (by norm_num) (by norm_num) (by norm_num)
    (by norm_num [Rect.grid_axis_sum]) (by norm_num)
    (by simp only [List.length_nil, List.length_cons]; omega) 3 4 h1 h2

end Taffy
